import Mathlib

/-!
A verification development for the go-slang virtual machine.

Two subsystems are modelled, each as a shallow embedding translated from the
implementation:

* the tagged-pointer heap (`src/runner/heap.ts`, class `Heap`): a word-addressed
  buffer of fixed 10-word nodes, a first-fit free-list allocator, mark-and-sweep
  garbage collection, heap doubling, channels, arrays, environments, frames and
  an interned string pool;
* the object-level runner (`src/runner/goroutines/goroutine.ts` and
  `src/runner/runner.ts`): goroutine instruction execution over an operand
  stack of JS values, channel objects, and the `cycleNext` rotation of the scheduler
  rotation.

Modelling conventions:

* JS `number` values that hold word payloads, addresses or hashes are modelled
  as `Int`.  The heap stores 8-byte words; a word is either the first word of a
  node (tag byte, gc byte, 16-bit child count, 32-bit metadata - the
  `Word.header` constructor) or a raw data word written by `setWord`
  (`Word.data`).  A freshly zeroed buffer word is `Word.header 0 false 0 0`,
  which agrees with the real buffer: a zero byte read as a tag is `FREE = 0`
  and a zero word read as a float is `0`.
* byte-surgery on a word of the other kind (which in the real DataView would
  produce reinterpreted garbage) is modelled by junk values; no theorem below
  depends on such reads.
* exceptions (`throw new Error(...)`) are modelled with `Except String`; the
  heap state threaded alongside is the state at throw time (JS exceptions do
  not roll back mutations).
* the unbounded recursion of `markRecursive` is modelled with an explicit fuel
  parameter whose exhaustion is a distinguished error; the termination theorem
  shows that enough fuel always exists, so exhaustion never occurs on the
  states the theorems cover.
* `runner.markGoroutines()` (the GC root callback into the scheduler) is
  modelled by a list of root addresses stored in the heap state
  (`runnerRoots`), each marked with `markRecursive` exactly as the per-goroutine `mark()`
  does.
-/

/-! ## Tags (enum `Tag`, heap.ts lines 445-471) -/

def tagFREE : Nat := 0
def tagUNALLOCATED : Nat := 1
def tagFALSE : Nat := 2
def tagTRUE : Nat := 3
def tagNUMBER : Nat := 4
def tagNULL : Nat := 5
def tagUNDEFINED : Nat := 6
def tagCHAN : Nat := 7
def tagSTRUCT : Nat := 8
def tagARRAY : Nat := 9
def tagSLICE : Nat := 10
def tagCLOSURE : Nat := 11
def tagBUILTIN : Nat := 12
def tagSTRING : Nat := 13
def tagENVIRONMENT : Nat := 14
def tagFRAME : Nat := 15
def tagBLOCKFRAME : Nat := 16
def tagCALLFRAME : Nat := 17
def tagEXTENSION : Nat := 18
def tagWAIT_SEND : Nat := 19
def tagWAIT_RECEIVE : Nat := 20

/-- `WORD_SIZE = 8` bytes (heap.ts line 432). -/
def WORD_SIZE : Nat := 8

/-- `NODE_SIZE = 10` words (heap.ts line 442). -/
def NODE_SIZE : Nat := 10

/-! ## Words

One 8-byte word of the heap buffer.  `header` models the first word of a node:
byte 0 is the tag, byte 1 the gc mark, bytes 2-3 the child count (uint16),
bytes 4-7 the metadata (int32, also used as the free-list "next" pointer).
`data` models a word written wholesale by `setWord` (a float64 holding an
address, a number payload, or a string hash). -/

inductive Word : Type
  | header (tag : Nat) (marked : Bool) (children : Nat) (meta : Int)
  | data (v : Int)
deriving DecidableEq

instance : Inhabited Word := ⟨Word.header 0 false 0 0⟩

/-! ## Heap state (class `Heap`, heap.ts lines 473-564) -/

structure Heap : Type where
  /-- the `DataView` buffer, word-addressed.  Words outside `[0, sizeBytes/8)`
      are junk the real DataView would refuse to touch; no verified execution
      reaches them. -/
  mem : Int → Word
  /-- `byteLength` of the backing buffer. -/
  sizeBytes : Nat
  /-- the free-list head (`-1` = empty). -/
  freePointer : Int
  /-- `stringPool : [number, string][]`, a sparse array keyed by hash.
      Strings are modelled as lists of UTF-16 code units. -/
  stringPool : Int → Option (Int × List Nat)
  /-- literal singleton addresses (`False`, `True`, `Null`, `Undefined`,
      `Unallocated` fields of the class). -/
  litFalse : Int
  litTrue : Int
  litNull : Int
  litUndefined : Int
  litUnallocated : Int
  /-- `globalEnv` field. -/
  globalEnv : Int
  /-- the `working` root list. -/
  working : List Int
  /-- the addresses marked by `runner.markGoroutines()`; the runner is
      external state so the roots it would mark are carried here. -/
  runnerRoots : List Int

instance : Inhabited Heap :=
  ⟨⟨fun _ => default, 0, 0, fun _ => none, 0, 0, 0, 0, 0, 0, [], []⟩⟩

namespace Heap

/-! ### Raw word accessors (heap.ts lines 619-671)

The byte-level accessors `setByteAtOffset` etc. are modelled directly at the
level of header fields, which is how the implementation uses them. -/

/-- memory update helper. -/
def writeMem (h : Heap) (a : Int) (w : Word) : Heap :=
  { h with mem := fun b => if b = a then w else h.mem b }

/-- `setWord` (line 619): store a whole word. -/
def setWord (h : Heap) (a : Int) (v : Int) : Heap :=
  h.writeMem a (Word.data v)

/-- `getWord` (line 623): read a whole word.  Reading a header word as a
    float64 yields reinterpreted garbage in the real heap; modelled as `0`. -/
def getWord (h : Heap) (a : Int) : Int :=
  match h.mem a with
  | Word.data v => v
  | Word.header _ _ _ _ => 0

/-- `setTag` (line 657): write byte 0 of the first word of the node.  On a `data`
    word the real DataView would corrupt one byte of the float; modelled by a
    junk header. -/
def setTag (h : Heap) (a : Int) (t : Nat) : Heap :=
  match h.mem a with
  | Word.header _ m c meta => h.writeMem a (Word.header t m c meta)
  | Word.data _ => h.writeMem a (Word.header t false 0 0)

/-- `getTag` (line 661).  Reading byte 0 of a raw data word yields junk;
    modelled as `255` (not a valid tag). -/
def getTag (h : Heap) (a : Int) : Nat :=
  match h.mem a with
  | Word.header t _ _ _ => t
  | Word.data _ => 255

/-- `setNumChildren` (line 665): bytes 2-3, truncated to uint16. -/
def setNumChildren (h : Heap) (a : Int) (c : Nat) : Heap :=
  match h.mem a with
  | Word.header t m _ meta => h.writeMem a (Word.header t m (c % 65536) meta)
  | Word.data _ => h.writeMem a (Word.header 0 false (c % 65536) 0)

/-- `getNumChildren` (line 669). -/
def getNumChildren (h : Heap) (a : Int) : Nat :=
  match h.mem a with
  | Word.header _ _ c _ => c
  | Word.data _ => 0

/-- int32 truncation used by `DataView.setInt32`. -/
def toInt32 (x : Int) : Int :=
  let r := x % 4294967296
  if r < 2147483648 then r else r - 4294967296

/-- write the 32-bit metadata field (bytes 4-7 of the first word). -/
def setMeta (h : Heap) (a : Int) (v : Int) : Heap :=
  match h.mem a with
  | Word.header t m c _ => h.writeMem a (Word.header t m c (toInt32 v))
  | Word.data _ => h.writeMem a (Word.header 0 false 0 (toInt32 v))

/-- read the 32-bit metadata field. -/
def getMeta (h : Heap) (a : Int) : Int :=
  match h.mem a with
  | Word.header _ _ _ meta => meta
  | Word.data _ => 0

/-! ### Tag predicates (heap.ts lines 834-920) -/

def isFree (h : Heap) (a : Int) : Bool := h.getTag a = tagFREE
def isUnallocated (h : Heap) (a : Int) : Bool := h.getTag a = tagUNALLOCATED
def isFalse (h : Heap) (a : Int) : Bool := h.getTag a = tagFALSE
def isTrue (h : Heap) (a : Int) : Bool := h.getTag a = tagTRUE
def isNumber (h : Heap) (a : Int) : Bool := h.getTag a = tagNUMBER
def isChan (h : Heap) (a : Int) : Bool := h.getTag a = tagCHAN
def isArray (h : Heap) (a : Int) : Bool := h.getTag a = tagARRAY
def isString (h : Heap) (a : Int) : Bool := h.getTag a = tagSTRING
def isEnvironment (h : Heap) (a : Int) : Bool := h.getTag a = tagENVIRONMENT
def isFrame (h : Heap) (a : Int) : Bool := h.getTag a = tagFRAME
def isExtension (h : Heap) (a : Int) : Bool := h.getTag a = tagEXTENSION
def isBoolean (h : Heap) (a : Int) : Bool := h.isFalse a || h.isTrue a
def isNull (h : Heap) (a : Int) : Bool := h.getTag a = tagNULL
def isUndefined (h : Heap) (a : Int) : Bool := h.getTag a = tagUNDEFINED

/-! ### Free list (heap.ts lines 643-654, 776-781) -/

/-- `setFreePointerAtAddress` (line 643): tag the node FREE and store the next
    free address in the metadata field. -/
def setFreePointerAtAddress (h : Heap) (a : Int) (next : Int) : Heap :=
  (h.setTag a tagFREE).setMeta a next

/-- `getFreePointerAtAddress` (line 648): read the next free address; throws
    if the node is not FREE. -/
def getFreePointerAtAddress (h : Heap) (a : Int) : Except String Int :=
  if h.isFree a then Except.ok (h.getMeta a)
  else Except.error "Not a free pointer"

/-- `free` (line 776): push a node onto the free list. -/
def free (h : Heap) (a : Int) : Heap :=
  let h := h.setFreePointerAtAddress a h.freePointer
  { h with freePointer := a }

/-! ### Mark bits (heap.ts lines 741-774) -/

def mark (h : Heap) (a : Int) : Heap :=
  match h.mem a with
  | Word.header t _ c meta => h.writeMem a (Word.header t true c meta)
  | Word.data _ => h.writeMem a (Word.header 0 true 0 0)

def isMarked (h : Heap) (a : Int) : Bool :=
  match h.mem a with
  | Word.header _ m _ _ => m
  | Word.data _ => false

def unmark (h : Heap) (a : Int) : Heap :=
  match h.mem a with
  | Word.header t _ c meta => h.writeMem a (Word.header t false c meta)
  | Word.data _ => h.writeMem a (Word.header 0 false 0 0)

end Heap

namespace Heap

/-! ### Recursive marking (`markRecursive`, heap.ts lines 745-766)

The implementation recurses without bound; the model takes a fuel parameter
and reports exhaustion as the distinguished error string `"fuel"`.  Theorem
`C9_markRecursive_terminates` shows a sufficient fuel always exists under the
heap wellformedness that the garbage collector relies on. -/

/-- the loop `for (let i = 1; i <= children; i++) markRecursive(getWord(address + i))`,
    parameterized by the recursive call (`markRecursiveF` at one fuel level
    down); `i` is the next child slot, `k` the number of slots still to
    visit. -/
def markChildrenGo (f : Int → Heap → Except String Heap) (a : Int) :
    Nat → Nat → Heap → Except String Heap
  | _, 0, h => Except.ok h
  | i, k + 1, h =>
    match f (h.getWord (a + i)) h with
    | Except.error e => Except.error e
    | Except.ok h' => markChildrenGo f a (i + 1) k h'

def markRecursiveF : Nat → Int → Heap → Except String Heap
  | 0, _, _ => Except.error "fuel"
  | fuel + 1, a, h =>
    if h.isMarked a then Except.ok h
    else if h.isFree a then Except.ok h
    else
      let h1 := h.mark a
      let children := h1.getNumChildren a
      markChildrenGo (markRecursiveF fuel) a 1 children h1

/-- the child loop at a given fuel level. -/
def markChildrenF (fuel : Nat) (a : Int) (i k : Nat) (h : Heap) : Except String Heap :=
  markChildrenGo (markRecursiveF fuel) a i k h

/-- mark every address of a list in order (`forEach` over the working set,
    and the net effect of `runner.markGoroutines()`). -/
def markListF (fuel : Nat) : List Int → Heap → Except String Heap
  | [], h => Except.ok h
  | a :: rest, h =>
    match markRecursiveF fuel a h with
    | Except.error e => Except.error e
    | Except.ok h' => markListF fuel rest h'

/-! ### Sweep (heap.ts lines 783-806) -/

/-- a bounded run of sweep iterations.  `cur` is the current node
    address; the loop runs while `cur * WORD_SIZE < byteLength`, freeing
    unmarked non-free nodes (deleting the string-pool entry of a freed
    string) and unmarking every node. -/
def sweepLoop : Nat → Int → Heap → Heap
  | 0, _, h => h
  | k + 1, cur, h =>
    if cur * 8 < (h.sizeBytes : Int) then
      let h1 :=
        if ¬ h.isMarked cur ∧ ¬ h.isFree cur then
          let h' :=
            if h.isString cur then
              { h with stringPool := fun j =>
                  if j = h.getWord (cur + 1) then none else h.stringPool j }
            else h
          h'.free cur
        else h
      sweepLoop k (cur + 10) (h1.unmark cur)
    else h

/-- `sweep`: the loop starting at node 0.  The fuel `sizeBytes / 80 + 1`
    strictly dominates the number of iterations the guard allows. -/
def sweep (h : Heap) : Heap :=
  sweepLoop (h.sizeBytes / (NODE_SIZE * WORD_SIZE) + 1) 0 h

/-! ### Garbage collection (heap.ts lines 808-831) -/

def garbageCollect (fuel : Nat) (h : Heap) : Except String Heap :=
  -- mark the five literals; `mark` never touches the literal-address fields,
  -- so reading them all from `h` matches the sequential `this.mark(...)` calls
  let h5 := ((((h.mark h.litFalse).mark h.litTrue).mark h.litNull).mark
      h.litUndefined).mark h.litUnallocated
  match markListF fuel h5.working h5 with
  | Except.error e => Except.error e
  | Except.ok h1 =>
    match markRecursiveF fuel h1.globalEnv h1 with
    | Except.error e => Except.error e
    | Except.ok h2 =>
      match markListF fuel h2.runnerRoots h2 with
      | Except.error e => Except.error e
      | Except.ok h3 => Except.ok h3.sweep

/-! ### Heap resizing (heap.ts lines 700-739) -/

/-- the copy loop `for (let i = 0; i < oldAllocableSize / WORD_SIZE; i++)
    newHeap.set(i, oldHeap.get(i))`: copy words `0 .. n-1` from `old` onto
    `m` (the fresh zeroed buffer). -/
def copyWordsLoop (old : Int → Word) : Nat → (Int → Word) → (Int → Word)
  | 0, m => m
  | k + 1, m =>
    let m' := copyWordsLoop old k m
    fun b => if b = (k : Int) then old (k : Int) else m' b

/-- the free-list initialization loop shared by the constructor (lines
    541-546) and `resizeHeap` (lines 732-738):
    `for (; (i + NODE_SIZE) * WORD_SIZE < allocable; i += NODE_SIZE)
       setFreePointerAtAddress(i, i + NODE_SIZE); setFreePointerAtAddress(i, -1)`. -/
def initFreeListLoop : Nat → Int → Nat → Heap → Heap
  | 0, _, _, h => h
  | k + 1, i, allocable, h =>
    if (i + 10) * 8 < (allocable : Int) then
      initFreeListLoop k (i + 10) allocable (h.setFreePointerAtAddress i (i + 10))
    else h.setFreePointerAtAddress i (-1)

def resizeHeap (h : Heap) : Heap :=
  let oldSize := h.sizeBytes
  let newSize := oldSize * 2
  let oldAllocable := oldSize - oldSize % (NODE_SIZE * WORD_SIZE)
  let newAllocable := newSize - newSize % (NODE_SIZE * WORD_SIZE)
  let newMem := copyWordsLoop h.mem (oldAllocable / WORD_SIZE) (fun _ => Word.header 0 false 0 0)
  let fp : Int := (oldAllocable / WORD_SIZE : Nat)
  let h1 := { h with mem := newMem, sizeBytes := newSize, freePointer := fp }
  initFreeListLoop (newAllocable / (NODE_SIZE * WORD_SIZE) + 1) fp newAllocable h1

/-! ### Allocation (heap.ts lines 675-698) -/

def allocate (fuel : Nat) (tag : Nat) (children : Nat) (h : Heap) :
    Except String Int × Heap :=
  let newNode := h.freePointer
  match h.getFreePointerAtAddress newNode with
  | Except.error e => (Except.error e, h)
  | Except.ok nxt =>
    let h1 := { h with freePointer := nxt }
    if nxt = -1 then
      match garbageCollect fuel h1 with
      | Except.error e => (Except.error e, h1)
      | Except.ok h2 =>
        let h3 := if h2.freePointer = -1 then h2.resizeHeap else h2
        (Except.ok newNode,
          ((h3.setTag newNode tag).unmark newNode).setNumChildren newNode children)
    else
      (Except.ok newNode,
        ((h1.setTag newNode tag).unmark newNode).setNumChildren newNode children)

/-! ### Typed allocators and accessors (heap.ts lines 922-1235) -/

/-- `allocateNumber` (line 925); the float payload is modelled as `Int`. -/
def allocateNumber (fuel : Nat) (value : Int) (h : Heap) : Except String Int × Heap :=
  match allocate fuel tagNUMBER 0 h with
  | (Except.error e, h') => (Except.error e, h')
  | (Except.ok addr, h') => (Except.ok addr, h'.setWord (addr + 1) value)

/-- `allocateChannel` (lines 934-939). -/
def allocateChannel (fuel : Nat) (h : Heap) : Except String Int × Heap :=
  match allocate fuel tagCHAN 2 h with
  | (Except.error e, h') => (Except.error e, h')
  | (Except.ok addr, h') =>
    let h1 := h'.setWord (addr + 1) h'.litFalse
    let h2 := h1.setWord (addr + 2) h1.litUnallocated
    (Except.ok addr, h2)

/-- `channelIsFull` (lines 941-946). -/
def channelIsFull (h : Heap) (chan : Int) : Except String Bool :=
  if ¬ h.isChan chan then Except.error "Not a channel"
  else Except.ok (h.getWord (chan + 1) = h.litTrue)

/-- `channelIsEmpty` (lines 948-953). -/
def channelIsEmpty (h : Heap) (chan : Int) : Except String Bool :=
  if ¬ h.isChan chan then Except.error "Not a channel"
  else Except.ok (h.getWord (chan + 1) = h.litFalse)

/-- `channelPopItem` (lines 955-966); errors are raised before any mutation,
    so the state paired with an error is the unchanged heap. -/
def channelPopItem (h : Heap) (chan : Int) : Except String Int × Heap :=
  if ¬ h.isChan chan then (Except.error "Not a channel", h)
  else if h.getWord (chan + 1) = h.litFalse then (Except.error "Channel is empty", h)
  else
    let item := h.getWord (chan + 2)
    let h1 := h.setWord (chan + 2) h.litUnallocated
    let h2 := h1.setWord (chan + 1) h1.litFalse
    (Except.ok item, h2)

/-- `channelPushItem` (lines 968-977). -/
def channelPushItem (h : Heap) (chan : Int) (item : Int) : Except String Unit × Heap :=
  if ¬ h.isChan chan then (Except.error "Not a channel", h)
  else if h.getWord (chan + 1) = h.litTrue then (Except.error "Channel is full", h)
  else
    let h1 := h.setWord (chan + 2) item
    let h2 := h1.setWord (chan + 1) h1.litTrue
    (Except.ok (), h2)

end Heap

namespace Heap

/-! ### Extension chains (heap.ts lines 986-1045) -/

/-- the inner loop `for (let i = 1; i <= 9; i++) setWord(addr + i, Unallocated)`:
    set `k` words to the UNALLOCATED singleton starting at slot `i`. -/
def clearSlots : Nat → Nat → Int → Heap → Heap
  | _, 0, _, h => h
  | i, k + 1, addr, h => clearSlots (i + 1) k addr (h.setWord (addr + i) h.litUnallocated)

/-- `allocateExtension` (line 1469). -/
def allocateExtension (fuel : Nat) (children : Nat) (h : Heap) : Except String Int × Heap :=
  allocate fuel tagEXTENSION children h

/-- the extension loop of `allocateItemWithExtension` (lines 1016-1037):
    `i` counts the extensions already built, `k` those still to build,
    `wrk` is the current `working` node. -/
def extensionLoop (fuel : Nat) (numExtensions offset : Nat) :
    Nat → Nat → Int → Heap → Except String Int × Heap
  | _, 0, wrk, h => (Except.ok wrk, h)
  | i, k + 1, wrk, h =>
    match allocateExtension fuel
        (if i = numExtensions - 1 then (if offset = 0 then 8 else offset) else 9) h with
    | (Except.error e, h') => (Except.error e, h')
    | (Except.ok ext, h') =>
      let h1 := { h' with working := h'.working ++ [ext] }
      let h2 := h1.setWord (wrk + 9) ext
      let h3 := clearSlots 1 9 ext h2
      extensionLoop fuel numExtensions offset (i + 1) k ext h3

/-- `allocateItemWithExtension` (lines 988-1045). -/
def allocateItemWithExtension (fuel : Nat) (tag : Nat) (children : Nat) (h : Heap) :
    Except String Int × Heap :=
  let numExtensions := if children = 0 then 0 else (children + 7) / 8 - 1
  let offset := children % 8
  match allocate fuel tag (if children > 8 then 9 else children) h with
  | (Except.error e, h') => (Except.error e, h')
  | (Except.ok addr, h') =>
    let h1 := { h' with working := h'.working ++ [addr] }
    let h2 := clearSlots 1 9 addr h1
    match extensionLoop fuel numExtensions offset 0 numExtensions addr h2 with
    | (Except.error e, h3) => (Except.error e, h3)
    | (Except.ok wrk, h3) =>
      let h4 := h3.setWord (wrk + 9) h3.litUnallocated
      -- revert the working set (`numberAdded = 1 + numExtensions`)
      let h5 := { h4 with working := h4.working.take (h4.working.length - (1 + numExtensions)) }
      (Except.ok addr, h5)

/-! ### Arrays (heap.ts lines 1047-1123) -/

/-- `allocateArray` (lines 1051-1058). -/
def allocateArray (fuel : Nat) (size : Nat) (h : Heap) : Except String Int × Heap :=
  match allocateItemWithExtension fuel tagARRAY size h with
  | (Except.error e, h') => (Except.error e, h')
  | (Except.ok addr, h') => (Except.ok addr, h'.setMeta addr (size : Int))

/-- the traversal loop shared (textually repeated) by `accessArrayIndex`,
    `assignArrayIndex`, `getFrameValue` and `setFrameValue`: follow `steps`
    extension links, checking at each step that the current node satisfies
    `pred` (`isExtension || isArray`, resp. `isFrame`), else throw `err`. -/
def chainTraverse (pred : Heap → Int → Bool) (err : String) :
    Nat → Int → Heap → Except String Int
  | 0, wrk, _ => Except.ok wrk
  | k + 1, wrk, h =>
    if ¬ pred h wrk then Except.error err
    else chainTraverse pred err k (h.getWord (wrk + 9)) h

/-- `accessArrayIndex` (lines 1060-1091).  `index` is the address of a NUMBER
    node; its payload is read the way `addressToValue` reads a NUMBER.
    `Math.floor(x / 8)` is `Int.fdiv`, JS `%` is `Int.tmod`, and the JS loop
    `for (let i = 0; i < nodesAway; i++)` runs `nodesAway.toNat` times. -/
def accessArrayIndex (h : Heap) (array index : Int) : Except String Int :=
  if ¬ h.isArray array then Except.error "Not an array"
  else if ¬ h.isNumber index then Except.error "Index is not a number"
  else
    let indexValue := h.getWord (index + 1)
    let size := h.getMeta array
    if indexValue ≥ size then Except.error "Index out of bounds"
    else
      let nodesAway := Int.fdiv indexValue 8
      let offset := Int.tmod indexValue 8
      match chainTraverse (fun hh a => hh.isExtension a || hh.isArray a) "Not an array"
          nodesAway.toNat array h with
      | Except.error e => Except.error e
      | Except.ok wrk => Except.ok (h.getWord (wrk + offset + 1))

/-- `assignArrayIndex` (lines 1093-1123). -/
def assignArrayIndex (h : Heap) (array index value : Int) : Except String Unit × Heap :=
  if ¬ h.isArray array then (Except.error "Not an array", h)
  else if ¬ h.isNumber index then (Except.error "Index is not a number", h)
  else
    let indexValue := h.getWord (index + 1)
    let size := h.getMeta array
    if indexValue ≥ size then (Except.error "Index out of bounds", h)
    else
      let nodesAway := Int.fdiv indexValue 8
      let offset := Int.tmod indexValue 8
      match chainTraverse (fun hh a => hh.isExtension a || hh.isArray a) "Not an array"
          nodesAway.toNat array h with
      | Except.error e => (Except.error e, h)
      | Except.ok wrk => (Except.ok (), h.setWord (wrk + offset + 1) value)

/-! ### Strings (heap.ts lines 1193-1235) -/

/-- one step of the DJB2 loop (lines 1195-1198): `hash = (hash << 5) + hash + c`
    with JS int32 shift semantics, then `hash = hash & hash` (int32 fold). -/
def hashStep (hash : Int) (c : Nat) : Int :=
  toInt32 (toInt32 (toInt32 hash * 32) + hash + (c : Int))

/-- `hashString` (lines 1193-1200): DJB2 over the UTF-16 code units, folded
    to int32 each step, returned as uint32 (`hash >>> 0`). -/
def hashString (s : List Nat) : Int :=
  let r := s.foldl hashStep 5381
  if r < 0 then r + 4294967296 else r

/-- `fetchAddressFromStringPool` (lines 1202-1207). -/
def fetchAddressFromStringPool (h : Heap) (hash : Int) : Option Int :=
  match h.stringPool hash with
  | none => none
  | some (a, _) => some a

/-- `allocateString` (lines 1211-1227). -/
def allocateString (fuel : Nat) (s : List Nat) (h : Heap) : Except String Int × Heap :=
  let hash := hashString s
  match h.fetchAddressFromStringPool hash with
  | some a => (Except.ok a, h)
  | none =>
    match allocate fuel tagSTRING 0 h with
    | (Except.error e, h') => (Except.error e, h')
    | (Except.ok addr, h') =>
      let h1 := { h' with stringPool := fun j =>
          if j = hash then some (addr, s) else h'.stringPool j }
      let h2 := h1.setWord (addr + 1) hash
      (Except.ok addr, h2)

/-- `getString` (lines 1229-1235).  A missing pool entry is a JS `TypeError`
    (indexing `undefined`); modelled as an error. -/
def getString (h : Heap) (a : Int) : Except String (List Nat) :=
  if ¬ h.isString a then Except.error "Not a string"
  else
    match h.stringPool (h.getWord (a + 1)) with
    | some (_, s) => Except.ok s
    | none => Except.error "TypeError: string pool entry missing"

/-! ### Environments and frames (heap.ts lines 1237-1427) -/

/-- `allocateEnvironment` (lines 1240-1244). -/
def allocateEnvironment (fuel : Nat) (frames : Nat) (h : Heap) : Except String Int × Heap :=
  match allocateItemWithExtension fuel tagENVIRONMENT frames h with
  | (Except.error e, h') => (Except.error e, h')
  | (Except.ok addr, h') => (Except.ok addr, h'.setMeta addr (frames : Int))

/-- `getNumEnvironmentFrames` (lines 1246-1251). -/
def getNumEnvironmentFrames (h : Heap) (env : Int) : Except String Int :=
  if ¬ h.isEnvironment env then Except.error "Not an environment"
  else Except.ok (h.getMeta env)

/-- the slot-copy loop `for (let i = 1; i <= n; i++) setWord(dst + i, getWord(src + i))`
    used twice inside `extendEnvironment` - note the source copies from `env`
    to `addr` (the head nodes), not from the traversal cursors. -/
def copySlots : Nat → Nat → Int → Int → Heap → Heap
  | _, 0, _, _, h => h
  | i, k + 1, dst, src, h => copySlots (i + 1) k dst src (h.setWord (dst + i) (h.getWord (src + i)))

/-- the copy loop of `extendEnvironment` (lines 1285-1292):
    `while (getNumChildren(oldWorking) > 8) { copy slots 1..8 of env onto addr;
    newWorking = getWord(newWorking + 9); oldWorking = getWord(oldWorking + 9) }`.
    The loop is unbounded in the source; fuel exhaustion is the distinguished
    error. -/
def extendCopyLoop (addr env : Int) : Nat → Int → Int → Heap → Except String (Int × Int × Heap)
  | 0, _, _, _ => Except.error "fuel"
  | k + 1, newWorking, oldWorking, h =>
    if h.getNumChildren oldWorking > 8 then
      let h1 := copySlots 1 8 addr env h
      extendCopyLoop addr env k (h1.getWord (newWorking + 9)) (h1.getWord (oldWorking + 9)) h1
    else Except.ok (newWorking, oldWorking, h)

/-- `extendEnvironment` (lines 1254-1315). -/
def extendEnvironment (fuel : Nat) (env frame : Int) (h : Heap) : Except String Int × Heap :=
  if ¬ h.isEnvironment env then (Except.error "Not an environment", h)
  else if ¬ h.isFrame frame then (Except.error "Not a frame", h)
  else
    let h0 := { h with working := h.working ++ [env, frame] }
    let frames := (h0.getMeta env).toNat
    match allocateEnvironment fuel (frames + 1) h0 with
    | (Except.error e, h') => (Except.error e, h')
    | (Except.ok addr, h1) =>
      let h2 := { h1 with working := h1.working ++ [addr] }
      match extendCopyLoop addr env fuel addr env h2 with
      | Except.error e => (Except.error e, h2)
      | Except.ok (newWorking, oldWorking, h3) =>
        let oldFrames := h3.getNumChildren oldWorking
        let h4 :=
          if oldFrames < 8 then
            let hc := copySlots 1 oldFrames addr env h3
            hc.setWord (addr + oldFrames + 1) frame
          else
            let newWorking' := h3.getWord (newWorking + 9)
            h3.setWord (newWorking' + oldFrames + 1) frame
        let h5 := { h4 with working := h4.working.take (h4.working.length - 3) }
        (Except.ok addr, h5)

/-- `allocateFrame` (lines 1375-1379). -/
def allocateFrame (fuel : Nat) (bindings : Nat) (h : Heap) : Except String Int × Heap :=
  allocateItemWithExtension fuel tagFRAME bindings h

/-- `getFrameValue` (lines 1383-1404). -/
def getFrameValue (h : Heap) (frame : Int) (index : Int) : Except String Int :=
  if ¬ h.isFrame frame then Except.error "Not a frame"
  else
    let nodesAway := Int.fdiv index 8
    let offset := Int.tmod index 8
    match chainTraverse (fun hh a => hh.isExtension a || hh.isFrame a) "Not a frame"
        nodesAway.toNat frame h with
    | Except.error e => Except.error e
    | Except.ok wrk => Except.ok (h.getWord (wrk + offset + 1))

/-- `setFrameValue` (lines 1408-1427). -/
def setFrameValue (h : Heap) (frame : Int) (index : Int) (value : Int) :
    Except String Unit × Heap :=
  if ¬ h.isFrame frame then (Except.error "Not a frame", h)
  else
    let nodesAway := Int.fdiv index 8
    let offset := Int.tmod index 8
    match chainTraverse (fun hh a => hh.isExtension a || hh.isFrame a) "Not a frame"
        nodesAway.toNat frame h with
    | Except.error e => (Except.error e, h)
    | Except.ok wrk => (Except.ok (), h.setWord (wrk + offset + 1) value)

/-- `allocateBuiltin` (lines 1173-1177). -/
def allocateBuiltin (fuel : Nat) (id : Nat) (h : Heap) : Except String Int × Heap :=
  match allocate fuel tagBUILTIN 0 h with
  | (Except.error e, h') => (Except.error e, h')
  | (Except.ok addr, h') => (Except.ok addr, h'.setMeta addr (id : Int))

end Heap

/-! ## JS values crossing the heap boundary (`valueToAddress`, heap.ts 1502-1519)

Strings are lists of UTF-16 code units; number payloads are modelled as `Int`
(no claim depends on non-integral float values). -/

inductive JSVal : Type
  | num (v : Int)
  | bool (b : Bool)
  | str (s : List Nat)
  | jsNull
  | jsUndefined
deriving DecidableEq

namespace Heap

/-- `valueToAddress` (lines 1502-1519). -/
def valueToAddress (fuel : Nat) (v : JSVal) (h : Heap) : Except String Int × Heap :=
  match v with
  | JSVal.num x => allocateNumber fuel x h
  | JSVal.bool b => (Except.ok (if b then h.litTrue else h.litFalse), h)
  | JSVal.str s => allocateString fuel s h
  | JSVal.jsNull => (Except.ok h.litNull, h)
  | JSVal.jsUndefined => (Except.ok h.litUndefined, h)

/-! ### Global environment (heap.ts lines 577-617)

`stdlib` (stdlib.ts) on the heap is 9 builtins allocated by index; `constants`
is 8 math constants boxed through `valueToAddress`.  The float values of the
constants never influence any claim; integer stand-in codes are used. -/

def constantsVals : List Int := [271828, 69314, 230258, 144269, 43429, 314159, 70710, 141421]

/-- the first loop of `initGlobalEnvironment`: allocate builtin `i`, push it
    on the working set, store it in frame slot `i`. -/
def installBuiltins (fuel : Nat) (frame : Int) : Nat → Nat → Heap → Except String Heap
  | _, 0, h => Except.ok h
  | i, k + 1, h =>
    match allocateBuiltin fuel i h with
    | (Except.error e, _) => Except.error e
    | (Except.ok b, h') =>
      let h1 := { h' with working := h'.working ++ [b] }
      match setFrameValue h1 frame (i : Int) b with
      | (Except.error e, _) => Except.error e
      | (Except.ok (), h2) => installBuiltins fuel frame (i + 1) k h2

/-- the second loop of `initGlobalEnvironment`: box each constant, push it on
    the working set, store it in the next frame slot. -/
def installConstants (fuel : Nat) (frame : Int) : Nat → List Int → Heap → Except String Heap
  | _, [], h => Except.ok h
  | i, c :: rest, h =>
    match valueToAddress fuel (JSVal.num c) h with
    | (Except.error e, _) => Except.error e
    | (Except.ok v, h') =>
      let h1 := { h' with working := h'.working ++ [v] }
      match setFrameValue h1 frame (i : Int) v with
      | (Except.error e, _) => Except.error e
      | (Except.ok (), h2) => installConstants fuel frame (i + 1) rest h2

/-- `initGlobalEnvironment` (lines 577-617).  `numAddedToWorking` is
    `1 (frame) + 9 (builtins) + 8 (constants) + 1 (env) = 19`. -/
def initGlobalEnvironment (fuel : Nat) (h : Heap) : Except String Int × Heap :=
  match allocateFrame fuel (9 + constantsVals.length) h with
  | (Except.error e, h') => (Except.error e, h')
  | (Except.ok frame, h') =>
    let h1 := { h' with working := h'.working ++ [frame] }
    match installBuiltins fuel frame 0 9 h1 with
    | Except.error e => (Except.error e, h1)
    | Except.ok h2 =>
      match installConstants fuel frame 9 constantsVals h2 with
      | Except.error e => (Except.error e, h2)
      | Except.ok h3 =>
        match allocateEnvironment fuel 1 h3 with
        | (Except.error e, h4) => (Except.error e, h4)
        | (Except.ok addr, h4) =>
          let h5 := { h4 with working := h4.working ++ [addr] }
          let h6 := h5.setWord (addr + 1) frame
          let h7 := { h6 with working := h6.working.take (h6.working.length - 19) }
          (Except.ok addr, h7)

/-! ### Constructor (heap.ts lines 520-564)

The constructor refuses buffers smaller than one node, zeroes a fresh buffer,
builds the free list over the allocable prefix, allocates the five singletons
(pushing each on the working set) and the global environment, then clears the
working set.  The fuel handed to the allocations is `size` itself, which
dominates any mark cascade on a `size`-byte heap. -/

def new (size : Nat) : Except String Heap :=
  if size < NODE_SIZE * WORD_SIZE then
    Except.error "Heap size too small - please allocate more initial memory"
  else
    let h0 : Heap :=
      { mem := fun _ => Word.header 0 false 0 0
        sizeBytes := size
        freePointer := 0
        stringPool := fun _ => none
        litFalse := 0, litTrue := 0, litNull := 0, litUndefined := 0
        litUnallocated := 0, globalEnv := 0
        working := [], runnerRoots := [] }
    let allocable := size - size % (NODE_SIZE * WORD_SIZE)
    let h1 := initFreeListLoop (allocable / (NODE_SIZE * WORD_SIZE) + 1) 0 allocable h0
    match allocate size tagFALSE 0 h1 with
    | (Except.error e, _) => Except.error e
    | (Except.ok f, h2) =>
      let h2 := { h2 with litFalse := f, working := h2.working ++ [f] }
      match allocate size tagTRUE 0 h2 with
      | (Except.error e, _) => Except.error e
      | (Except.ok t, h3) =>
        let h3 := { h3 with litTrue := t, working := h3.working ++ [t] }
        match allocate size tagNULL 0 h3 with
        | (Except.error e, _) => Except.error e
        | (Except.ok n, h4) =>
          let h4 := { h4 with litNull := n, working := h4.working ++ [n] }
          match allocate size tagUNDEFINED 0 h4 with
          | (Except.error e, _) => Except.error e
          | (Except.ok u, h5) =>
            let h5 := { h5 with litUndefined := u, working := h5.working ++ [u] }
            match allocate size tagUNALLOCATED 0 h5 with
            | (Except.error e, _) => Except.error e
            | (Except.ok ua, h6) =>
              let h6 := { h6 with litUnallocated := ua, working := h6.working ++ [ua] }
              match initGlobalEnvironment size h6 with
              | (Except.error e, _) => Except.error e
              | (Except.ok g, h7) =>
                Except.ok { h7 with globalEnv := g, working := [] }

end Heap

/-! ## Object-level runner model

Translated from the object-based runner: `Channel` (runner/values/channel.ts),
`NormalGoroutine.executeInstruction` and `waitingChannelIsFree`
(runner/goroutines/goroutine.ts, the version with channel support), and
`Runner.cycleNext` (runner/runner.ts).  The operand stack holds JS values
(`Value`); the environment, runtime stack, closures and builtins are not
touched by any instruction a claim is about and are omitted from the state.
The instruction subset modelled is the one the claims concern. -/

inductive ChanOp : Type
  | SEND
  | RECEIVE
deriving DecidableEq

inductive Value : Type
  | num (v : Int)
  | bool (b : Bool)
  | str (s : List Nat)
  | chanRef (c : Nat)
  | vNull
  | vUndefined
deriving DecidableEq

instance : Inhabited Value := ⟨Value.vUndefined⟩

/-- JS truthiness of an operand-stack value (`!condition` in JOF). -/
def jsFalsy : Value → Bool
  | Value.num v => v = 0
  | Value.bool b => ¬ b
  | Value.str s => s.isEmpty
  | Value.chanRef _ => false
  | Value.vNull => true
  | Value.vUndefined => true

/-- class `Channel` (values/channel.ts). -/
structure GoChannel : Type where
  hasItem : Bool := false
  done : Bool := false
  item : Value := Value.vNull
deriving DecidableEq

instance : Inhabited GoChannel := ⟨{}⟩

namespace GoChannel

def isFull (c : GoChannel) : Bool := c.hasItem

def isEmpty (c : GoChannel) : Bool := ¬ c.hasItem

/-- `send` mutates the channel: store the item, raise `hasItem`. -/
def send (c : GoChannel) (v : Value) : GoChannel := { c with item := v, hasItem := true }

/-- `receive`: `null` when empty, else lower `hasItem` and return the item
    (the `item` field itself is left in place). -/
def receive (c : GoChannel) : Value × GoChannel :=
  if ¬ c.hasItem then (Value.vNull, c)
  else (c.item, { c with hasItem := false })

end GoChannel

/-- channels are shared mutable objects; the store maps channel identities to
    their current state. -/
def ChanStore : Type := Nat → GoChannel

/-- per-goroutine state of `NormalGoroutine`: program counter, operand stack
    (head = top), lifecycle flags, and the `waitingOn` list (appended at the
    tail, as `Array.push` does). -/
structure GoState : Type where
  programCounter : Nat := 0
  operandStack : List Value := []
  done : Bool := false
  blocked : Bool := false
  waitingOn : List (Nat × ChanOp) := []
deriving DecidableEq

instance : Inhabited GoState := ⟨{}⟩

namespace GoState

def isDone (g : GoState) : Bool := g.done

def isBlocked (g : GoState) : Bool := g.blocked

def isRunnable (g : GoState) : Bool := ¬ g.done ∧ ¬ g.blocked

/-- `waitingChannelIsFree` (goroutine.ts lines 52-63): scan the `waitingOn`
    list; a `SEND` token is favorable when its channel is not full, a
    `RECEIVE` token when its channel is not empty. -/
def waitingChannelIsFree (g : GoState) (chs : ChanStore) : Bool :=
  g.waitingOn.any fun p =>
    match p.2 with
    | ChanOp.SEND => ¬ (chs p.1).isFull
    | ChanOp.RECEIVE => ¬ (chs p.1).isEmpty

/-- `unblock` (goroutine.ts lines 326-329). -/
def unblock (g : GoState) : GoState := { g with waitingOn := [], blocked := false }

end GoState

/-- the instruction subset relevant to the claims (compiler/instructions.ts);
    `LDC` carries its literal already as a `Value`. -/
inductive Instr : Type
  | LDC (value : Value)
  | POP
  | JOF (addr : Nat)
  | GOTO (addr : Nat)
  | SEND
  | RECEIVE
  | SOF (addr : Nat)
  | ROF (addr : Nat)
  | BLOCK
  | CLEAR_WAIT
  | DONE
deriving DecidableEq

/-- calls the goroutine makes back into the runner during one instruction. -/
inductive SchedEffect : Type
  | noCall
  | calledCycleNext
deriving DecidableEq

/-- `NormalGoroutine.executeInstruction` (goroutine.ts lines 65-267) on the
    modelled instruction subset.  Popping an empty stack throws
    `"Stack is empty"` (utils.ts); using a non-channel where a channel is
    expected is a JS `TypeError`. -/
def executeInstruction (i : Instr) (g : GoState) (chs : ChanStore) :
    Except String (GoState × ChanStore × SchedEffect) :=
  match i with
  | Instr.LDC v =>
    Except.ok ({ g with operandStack := v :: g.operandStack,
                        programCounter := g.programCounter + 1 }, chs, SchedEffect.noCall)
  | Instr.POP =>
    match g.operandStack with
    | [] => Except.error "Stack is empty"
    | _ :: rest =>
      Except.ok ({ g with operandStack := rest,
                          programCounter := g.programCounter + 1 }, chs, SchedEffect.noCall)
  | Instr.JOF addr =>
    match g.operandStack with
    | [] => Except.error "Stack is empty"
    | condition :: rest =>
      -- `if (!condition) { this.programCounter = addr; } this.programCounter++;`
      let pc1 := if jsFalsy condition then addr else g.programCounter
      Except.ok ({ g with operandStack := rest,
                          programCounter := pc1 + 1 }, chs, SchedEffect.noCall)
  | Instr.GOTO addr =>
    Except.ok ({ g with programCounter := addr }, chs, SchedEffect.noCall)
  | Instr.SEND =>
    match g.operandStack with
    | [] => Except.error "Stack is empty"
    | val :: rest0 =>
      match rest0 with
      | [] => Except.error "Stack is empty"
      | chanV :: rest =>
        match chanV with
        | Value.chanRef c =>
          if (chs c).isFull then
            -- put the value and channel back, block, record the wait token,
            -- and call `runner.cycleNext()`
            Except.ok ({ g with
                operandStack := val :: Value.chanRef c :: rest,
                blocked := true,
                waitingOn := g.waitingOn ++ [(c, ChanOp.SEND)] }, chs,
              SchedEffect.calledCycleNext)
          else
            Except.ok ({ g with operandStack := rest,
                                programCounter := g.programCounter + 1 },
              fun j => if j = c then (chs c).send val else chs j,
              SchedEffect.noCall)
        | _ => Except.error "TypeError: not a channel"
  | Instr.RECEIVE =>
    match g.operandStack with
    | [] => Except.error "Stack is empty"
    | chanV :: rest =>
      match chanV with
      | Value.chanRef c =>
        if (chs c).isEmpty then
          Except.ok ({ g with
              operandStack := Value.chanRef c :: rest,
              blocked := true,
              waitingOn := g.waitingOn ++ [(c, ChanOp.RECEIVE)] }, chs,
            SchedEffect.calledCycleNext)
        else
          let r := (chs c).receive
          Except.ok ({ g with operandStack := r.1 :: rest,
                              programCounter := g.programCounter + 1 },
            fun j => if j = c then r.2 else chs j,
            SchedEffect.noCall)
      | _ => Except.error "TypeError: not a channel"
  | Instr.SOF addr =>
    match g.operandStack with
    | [] => Except.error "Stack is empty"
    | val :: rest0 =>
      match rest0 with
      | [] => Except.error "Stack is empty"
      | chanV :: rest =>
        match chanV with
        | Value.chanRef c =>
          if (chs c).isFull then
            Except.ok ({ g with
                operandStack := rest,
                programCounter := addr,
                waitingOn := g.waitingOn ++ [(c, ChanOp.SEND)] }, chs, SchedEffect.noCall)
          else
            Except.ok ({ g with operandStack := rest,
                                programCounter := g.programCounter + 1 },
              fun j => if j = c then (chs c).send val else chs j,
              SchedEffect.noCall)
        | _ => Except.error "TypeError: not a channel"
  | Instr.ROF addr =>
    match g.operandStack with
    | [] => Except.error "Stack is empty"
    | chanV :: rest =>
      match chanV with
      | Value.chanRef c =>
        if (chs c).isEmpty then
          Except.ok ({ g with
              operandStack := rest,
              programCounter := addr,
              waitingOn := g.waitingOn ++ [(c, ChanOp.RECEIVE)] }, chs, SchedEffect.noCall)
        else
          let r := (chs c).receive
          Except.ok ({ g with operandStack := r.1 :: rest,
                              programCounter := g.programCounter + 1 },
            fun j => if j = c then r.2 else chs j,
            SchedEffect.noCall)
      | _ => Except.error "TypeError: not a channel"
  | Instr.BLOCK =>
    Except.ok ({ g with blocked := true,
                        programCounter := g.programCounter + 1 }, chs,
      SchedEffect.calledCycleNext)
  | Instr.CLEAR_WAIT =>
    Except.ok ({ g with waitingOn := [],
                        programCounter := g.programCounter + 1 }, chs, SchedEffect.noCall)
  | Instr.DONE =>
    Except.ok ({ g with done := true }, chs, SchedEffect.noCall)

/-! ### The scheduler rotation `cycleNext` (runner.ts lines 52-108) -/

/-- the loop state of `cycleNext`: the (possibly unblocked) goroutine array,
    the `toClean` list, the `foundGoroutine` flag and `currGoroutine`. -/
structure ScanSt : Type where
  gs : List GoState
  toClean : List Nat
  found : Bool
  curr : Nat

/-- one iteration of the `cycleNext` loop at offset `i`:
    `goroutineToCheck = (this.currGoroutine + i + 1) % goroutines.length`.
    The read of `this.currGoroutine` sees the mutation lines 81/88 perform when
    a goroutine is found, so after a find the remaining iterations scan
    relative to the newly selected index (and can re-visit a position). -/
def cycleStep (chs : ChanStore) (n : Nat) (i : Nat) (st : ScanSt) : ScanSt :=
  let idx := (st.curr + i + 1) % n
  let g := st.gs.getD idx default
  if g.isDone ∧ idx ≠ 0 then { st with toClean := st.toClean ++ [idx] }
  else if st.found then st
  else if g.isBlocked then
    if g.waitingChannelIsFree chs then
      { st with gs := st.gs.set idx g.unblock, found := true, curr := idx }
    else st
  else { st with found := true, curr := idx }

/-- run the loop for `k` more iterations starting at offset `i`. -/
def cycleScan (chs : ChanStore) (n : Nat) : Nat → Nat → ScanSt → ScanSt
  | _, 0, st => st
  | i, k + 1, st => cycleScan chs n (i + 1) k (cycleStep chs n i st)

/-- descending insertion (`toClean.sort((a, b) => b - a)`). -/
def insertDesc (x : Nat) : List Nat → List Nat
  | [] => [x]
  | y :: ys => if x ≥ y then x :: y :: ys else y :: insertDesc x ys

def sortDesc : List Nat → List Nat
  | [] => []
  | x :: xs => insertDesc x (sortDesc xs)

/-- the cleanup fold: `splice(index, 1)` each index in descending order,
    decrementing `currGoroutine` for every removal below it. -/
def spliceClean : List Nat → List GoState × Nat → List GoState × Nat
  | [], st => st
  | idx :: rest, (gs, curr) =>
    spliceClean rest (gs.eraseIdx idx, if idx < curr then curr - 1 else curr)

/-- `Runner.cycleNext` (runner.ts lines 52-108): one full revolution of the
    ring starting after the current goroutine; deadlock if no candidate was
    found; then clean up done non-root goroutines. -/
def cycleNext (chs : ChanStore) (gs : List GoState) (curr : Nat) :
    Except String (List GoState × Nat) :=
  let n := gs.length
  let st := cycleScan chs n 0 n ⟨gs, [], false, curr⟩
  if ¬ st.found then Except.error "Deadlock detected: all goroutines are blocked."
  else Except.ok (spliceClean (sortDesc st.toClean) (st.gs, st.curr))

/-! ## Specification predicates -/

/-- the channel invariant of the specification: the `hasItem` child equals the
    TRUE singleton exactly when the `item` child is not the UNALLOCATED
    singleton. -/
def channelInvariant (h : Heap) (c : Int) : Prop :=
  (h.getWord (c + 1) = h.litTrue) ↔ (h.getWord (c + 2) ≠ h.litUnallocated)

instance (h : Heap) (c : Int) : Decidable (channelInvariant h c) := by
  unfold channelInvariant; infer_instance

/-- the evolution a heap undergoes during marking: every non-`mem` field is
    unchanged, and each word is unchanged, or is a header whose mark bit was
    raised, or was a raw data word that byte-surgery turned into a junk marked
    header. -/
def MarkOnly (h h' : Heap) : Prop :=
  h'.sizeBytes = h.sizeBytes ∧ h'.freePointer = h.freePointer ∧
  h'.stringPool = h.stringPool ∧ h'.litFalse = h.litFalse ∧ h'.litTrue = h.litTrue ∧
  h'.litNull = h.litNull ∧ h'.litUndefined = h.litUndefined ∧
  h'.litUnallocated = h.litUnallocated ∧ h'.globalEnv = h.globalEnv ∧
  h'.working = h.working ∧ h'.runnerRoots = h.runnerRoots ∧
  ∀ a, h'.mem a = h.mem a ∨
    (∃ t c meta, h.mem a = Word.header t false c meta ∧ h'.mem a = Word.header t true c meta) ∨
    (∃ v, h.mem a = Word.data v ∧ h'.mem a = Word.header 0 true 0 0)

/-- as `MarkOnly`, but data words are untouched: the evolution of a heap whose
    marking only ever reaches header words. -/
def MarkOnlyH (h h' : Heap) : Prop :=
  h'.sizeBytes = h.sizeBytes ∧ h'.freePointer = h.freePointer ∧
  h'.stringPool = h.stringPool ∧ h'.litFalse = h.litFalse ∧ h'.litTrue = h.litTrue ∧
  h'.litNull = h.litNull ∧ h'.litUndefined = h.litUndefined ∧
  h'.litUnallocated = h.litUnallocated ∧ h'.globalEnv = h.globalEnv ∧
  h'.working = h.working ∧ h'.runnerRoots = h.runnerRoots ∧
  ∀ a, h'.mem a = h.mem a ∨
    ∃ t c meta, h.mem a = Word.header t false c meta ∧ h'.mem a = Word.header t true c meta

/-- number of words in the backing buffer. -/
def Heap.sizeWords (h : Heap) : Nat := h.sizeBytes / WORD_SIZE

/-- a valid node address: a nonnegative word index inside the buffer holding a
    header word. -/
def isHeaderWord : Word → Bool
  | Word.header _ _ _ _ => true
  | Word.data _ => false

/-- is the word an unmarked header (the termination measure counts these)? -/
def isUnmarkedHeader : Word → Bool
  | Word.header _ false _ _ => true
  | _ => false

def validNodeB (h : Heap) (a : Int) : Bool :=
  decide (0 ≤ a) && decide (a < (h.sizeWords : Int)) && isHeaderWord (h.mem a)

/-- the hypothesis of the termination claim: every child word of every
    non-free node is a valid node address. -/
def wellFormedChildren (h : Heap) : Prop :=
  ∀ n : Nat, n < h.sizeWords → validNodeB h n → ¬ h.isFree n →
    ∀ i : Nat, 1 ≤ i → i ≤ h.getNumChildren n → validNodeB h (h.getWord ((n : Int) + i))

instance (h : Heap) : Decidable (wellFormedChildren h) := by
  unfold wellFormedChildren; infer_instance

/-- the number of unmarked header words in the buffer: the termination measure
    of `markRecursive`. -/
def unmarkedCount (h : Heap) : Nat :=
  ((Finset.range h.sizeWords).filter fun n => isUnmarkedHeader (h.mem ((n : Nat) : Int)) = true).card

/-- walk the free list: the addresses from `a` to the `-1` sentinel, `none` if
    the walk runs past `k` nodes or hits a non-FREE node. -/
def freeListFrom : Nat → Heap → Int → Option (List Int)
  | 0, _, _ => none
  | k + 1, h, a =>
    if a = -1 then some []
    else if h.isFree a then
      match freeListFrom k h (h.getMeta a) with
      | some l => some (a :: l)
      | none => none
    else none

/-- the candidate notion `cycleNext` actually implements: a task is selectable
    when it is not a cleaned-up done task (done tasks other than index 0 are
    cleaned), and is either unblocked or blocked with a favorable wait token. -/
def codeCandidate (gs : List GoState) (chs : ChanStore) (idx : Nat) : Bool :=
  let g := gs.getD idx default
  if g.isDone ∧ idx ≠ 0 then false
  else if g.isBlocked then g.waitingChannelIsFree chs
  else true

/-- the candidate notion in the claim wording: runnable (neither done nor
    blocked), or blocked with a favorable waiting token. -/
def claimCandidate (gs : List GoState) (chs : ChanStore) (idx : Nat) : Bool :=
  let g := gs.getD idx default
  g.isRunnable || (g.isBlocked && g.waitingChannelIsFree chs)

/-! ## Concrete fixtures for witnesses and counterexamples -/

/-- a freshly constructed 4000-byte heap (50 nodes; the constructor uses 26). -/
def testHeap : Heap :=
  match Heap.new 4000 with
  | Except.ok h => h
  | Except.error _ => default

/-- allocate an empty frame and extend environment `p.1` with it. -/
def extStep (p : Int × Heap) : Except String (Int × Heap) :=
  match Heap.allocateFrame 4000 0 p.2 with
  | (Except.error e, _) => Except.error e
  | (Except.ok f, h1) =>
    match Heap.extendEnvironment 4000 p.1 f h1 with
    | (Except.error e, _) => Except.error e
    | (Except.ok e2, h2) => Except.ok (e2, h2)

/-- `k` rounds of `extStep` starting from the global environment of
    `testHeap` (which holds one frame). -/
def iterExt : Nat → Except String (Int × Heap)
  | 0 => Except.ok (testHeap.globalEnv, testHeap)
  | k + 1 =>
    match iterExt k with
    | Except.error e => Except.error e
    | Except.ok p => extStep p

/-- after seven rounds: an environment recording exactly 8 frames. -/
def c1Pre : Int × Heap :=
  match iterExt 7 with
  | Except.ok p => p
  | Except.error _ => (0, default)

/-- a fresh empty frame to extend the 8-frame environment with. -/
def c1Frame : Int × Heap :=
  match Heap.allocateFrame 4000 0 c1Pre.2 with
  | (Except.ok f, h) => (f, h)
  | (Except.error _, _) => (0, default)

/-- the result of the failing call
    `extendEnvironment(<8-frame env>, <fresh frame>)`. -/
def c1Post : Int × Heap :=
  match Heap.extendEnvironment 4000 c1Pre.1 c1Frame.1 c1Frame.2 with
  | (Except.ok e, h) => (e, h)
  | (Except.error _, _) => (0, default)

/-- a channel freshly allocated on `testHeap`. -/
def c2Chan : Int × Heap :=
  match Heap.allocateChannel 4000 testHeap with
  | (Except.ok c, h) => (c, h)
  | (Except.error _, _) => (0, default)

/-- the heap after pushing the UNALLOCATED singleton itself into the fresh
    channel. -/
def c2Pushed : Heap :=
  (Heap.channelPushItem c2Chan.2 c2Chan.1 c2Chan.2.litUnallocated).2

/-- UTF-16 code units of `"ab"`. -/
def strAB : List Nat := [97, 98]

/-- UTF-16 code units of `"bA"`; DJB2/int32 collides with `"ab"`. -/
def strBA : List Nat := [98, 65]

/-- intern `"ab"` on the fresh heap. -/
def c4First : Int × Heap :=
  match Heap.allocateString 4000 strAB testHeap with
  | (Except.ok a, h) => (a, h)
  | (Except.error _, _) => (0, default)

/-- then intern `"bA"`. -/
def c4Second : Int × Heap :=
  match Heap.allocateString 4000 strBA c4First.2 with
  | (Except.ok a, h) => (a, h)
  | (Except.error _, _) => (0, default)

/-- a size-1 array whose element 0 holds the address of the number `7`,
    together with NUMBER index nodes for `0` and `-8`:
    array 260, number 7 at 270, index 0 at 280, index -8 at 290. -/
def c10State : Heap :=
  match Heap.allocateArray 4000 1 testHeap with
  | (Except.ok arr, h) =>
    match Heap.allocateNumber 4000 7 h with
    | (Except.ok seven, h2) =>
      match Heap.allocateNumber 4000 0 h2 with
      | (Except.ok idx0, h3) =>
        match Heap.assignArrayIndex h3 arr idx0 seven with
        | (Except.ok _, h4) =>
          match Heap.allocateNumber 4000 (-8) h4 with
          | (Except.ok _, h5) => h5
          | (Except.error _, _) => default
        | (Except.error _, _) => default
      | (Except.error _, _) => default
    | (Except.error _, _) => default
  | (Except.error _, _) => default

/-- ring for the C6 counterexample: the root task is done (and not blocked),
    the other task is blocked on a SEND over a full channel. -/
def c6Gs : List GoState :=
  [{ done := true }, { blocked := true, waitingOn := [(0, ChanOp.SEND)] }]

/-- every channel full. -/
def c6Chs : ChanStore := fun _ => { hasItem := true }

/-- ring for the C6 witness: every task blocked with unfavorable tokens. -/
def c6wGs : List GoState :=
  [{ blocked := true, waitingOn := [(0, ChanOp.SEND)] },
   { blocked := true, waitingOn := [(1, ChanOp.SEND)] }]

/-- four-task ring for the C6 counterexample against the selection sentence:
    runnable root, done, runnable, done.  The rotation from index 0 pushes
    index 1 to `toClean`, selects index 2, then — because the remaining
    iterations read the mutated current index — pushes index 1 a second time;
    the duplicate splice removes the selected runnable task. -/
def c6rGs : List GoState :=
  [{}, { done := true }, { programCounter := 2 }, { programCounter := 3, done := true }]

/-- a tiny two-node heap for the C3 witness: node 0 is the free head linking
    to node 10, which terminates the list. -/
def c3Heap : Heap :=
  { mem := fun a =>
      if a = 0 then Word.header tagFREE false 0 10
      else if a = 10 then Word.header tagFREE false 0 (-1)
      else Word.header 0 false 0 0
    sizeBytes := 160
    freePointer := 0
    stringPool := fun _ => none
    litFalse := 0, litTrue := 0, litNull := 0, litUndefined := 0
    litUnallocated := 0, globalEnv := 0
    working := [], runnerRoots := [] }

/-- a tiny heap with a cyclic object graph for the C9 witness: node 0 (an
    environment) points to node 10 and to itself; node 10 (a frame) points
    back to node 0. -/
def c9Heap : Heap :=
  { mem := fun a =>
      if a = 0 then Word.header tagENVIRONMENT false 2 0
      else if a = 1 then Word.data 10
      else if a = 2 then Word.data 0
      else if a = 10 then Word.header tagFRAME false 1 0
      else if a = 11 then Word.data 0
      else Word.header 0 false 0 0
    sizeBytes := 160
    freePointer := -1
    stringPool := fun _ => none
    litFalse := 0, litTrue := 0, litNull := 0, litUndefined := 0
    litUnallocated := 0, globalEnv := 0
    working := [], runnerRoots := [] }

/-- a small five-singleton heap for the C8 witness: the literals at their
    constructor addresses 0,10,20,30,40, a childless global environment at 50,
    and a garbage node at 60 that the sweep should reclaim. -/
def c8Heap : Heap :=
  { mem := fun a =>
      if a = 0 then Word.header tagFALSE false 0 10
      else if a = 10 then Word.header tagTRUE false 0 20
      else if a = 20 then Word.header tagNULL false 0 30
      else if a = 30 then Word.header tagUNDEFINED false 0 40
      else if a = 40 then Word.header tagUNALLOCATED false 0 50
      else if a = 50 then Word.header tagENVIRONMENT false 0 0
      else if a = 60 then Word.header tagNUMBER false 0 0
      else Word.header 0 false 0 0
    sizeBytes := 560
    freePointer := -1
    stringPool := fun _ => none
    litFalse := 0, litTrue := 10, litNull := 20, litUndefined := 30
    litUnallocated := 40, globalEnv := 50
    working := [], runnerRoots := [] }

/-- the C8 witness heap after one collection. -/
def c8After : Heap :=
  match Heap.garbageCollect 100 c8Heap with
  | Except.ok h => h
  | Except.error _ => default

/-- the sweep-stable fields: everything except `mem`, `freePointer` and
    `stringPool`. -/
def SweepFields (h h' : Heap) : Prop :=
  h'.sizeBytes = h.sizeBytes ∧ h'.litFalse = h.litFalse ∧ h'.litTrue = h.litTrue ∧
  h'.litNull = h.litNull ∧ h'.litUndefined = h.litUndefined ∧
  h'.litUnallocated = h.litUnallocated ∧ h'.globalEnv = h.globalEnv ∧
  h'.working = h.working ∧ h'.runnerRoots = h.runnerRoots

/-- the effect of `mark` on a single word. -/
def markedWord : Word → Word
  | Word.header t _ c meta => Word.header t true c meta
  | Word.data _ => Word.header 0 true 0 0

/-- the effect of `unmark` on a single word. -/
def unmarkedWord : Word → Word
  | Word.header t _ c meta => Word.header t false c meta
  | Word.data _ => Word.header 0 false 0 0

/-! # Theorems

First a library of small read/write lemmas about the heap model, then the
marking, sweeping and resizing lemmas, and finally one theorem (plus witness
or counterexample) per specification claim. -/

set_option maxRecDepth 200000

namespace Heap

@[simp] theorem mem_writeMem (h : Heap) (a : Int) (w : Word) (b : Int) :
    (h.writeMem a w).mem b = if b = a then w else h.mem b := rfl

@[simp] theorem sizeBytes_writeMem (h : Heap) (a : Int) (w : Word) :
    (h.writeMem a w).sizeBytes = h.sizeBytes := rfl

@[simp] theorem freePointer_writeMem (h : Heap) (a : Int) (w : Word) :
    (h.writeMem a w).freePointer = h.freePointer := rfl

@[simp] theorem stringPool_writeMem (h : Heap) (a : Int) (w : Word) :
    (h.writeMem a w).stringPool = h.stringPool := rfl

@[simp] theorem litFalse_writeMem (h : Heap) (a : Int) (w : Word) :
    (h.writeMem a w).litFalse = h.litFalse := rfl

@[simp] theorem litTrue_writeMem (h : Heap) (a : Int) (w : Word) :
    (h.writeMem a w).litTrue = h.litTrue := rfl

@[simp] theorem litNull_writeMem (h : Heap) (a : Int) (w : Word) :
    (h.writeMem a w).litNull = h.litNull := rfl

@[simp] theorem litUndefined_writeMem (h : Heap) (a : Int) (w : Word) :
    (h.writeMem a w).litUndefined = h.litUndefined := rfl

@[simp] theorem litUnallocated_writeMem (h : Heap) (a : Int) (w : Word) :
    (h.writeMem a w).litUnallocated = h.litUnallocated := rfl

@[simp] theorem globalEnv_writeMem (h : Heap) (a : Int) (w : Word) :
    (h.writeMem a w).globalEnv = h.globalEnv := rfl

@[simp] theorem working_writeMem (h : Heap) (a : Int) (w : Word) :
    (h.writeMem a w).working = h.working := rfl

@[simp] theorem runnerRoots_writeMem (h : Heap) (a : Int) (w : Word) :
    (h.writeMem a w).runnerRoots = h.runnerRoots := rfl

/-- `setWord` only rewrites the addressed cell. -/
theorem mem_setWord (h : Heap) (a v : Int) (b : Int) :
    (h.setWord a v).mem b = if b = a then Word.data v else h.mem b := rfl

theorem getWord_setWord_self (h : Heap) (a v : Int) : (h.setWord a v).getWord a = v := by
  simp [setWord, getWord]

theorem getWord_setWord_ne (h : Heap) (a v b : Int) (hne : b ≠ a) :
    (h.setWord a v).getWord b = h.getWord b := by
  simp [setWord, getWord, hne]

theorem getTag_setWord_ne (h : Heap) (a v b : Int) (hne : b ≠ a) :
    (h.setWord a v).getTag b = h.getTag b := by
  simp [setWord, getTag, hne]

/-- the non-`mem` fields untouched by each pure-memory writer. -/
theorem setWord_fields (h : Heap) (a v : Int) :
    (h.setWord a v).sizeBytes = h.sizeBytes ∧ (h.setWord a v).freePointer = h.freePointer ∧
    (h.setWord a v).stringPool = h.stringPool ∧ (h.setWord a v).litFalse = h.litFalse ∧
    (h.setWord a v).litTrue = h.litTrue ∧ (h.setWord a v).litNull = h.litNull ∧
    (h.setWord a v).litUndefined = h.litUndefined ∧
    (h.setWord a v).litUnallocated = h.litUnallocated ∧
    (h.setWord a v).globalEnv = h.globalEnv ∧ (h.setWord a v).working = h.working ∧
    (h.setWord a v).runnerRoots = h.runnerRoots :=
  ⟨rfl, rfl, rfl, rfl, rfl, rfl, rfl, rfl, rfl, rfl, rfl⟩

@[simp] theorem litTrue_setWord (h : Heap) (a v : Int) : (h.setWord a v).litTrue = h.litTrue := rfl

@[simp] theorem litFalse_setWord (h : Heap) (a v : Int) : (h.setWord a v).litFalse = h.litFalse := rfl

@[simp] theorem litUnallocated_setWord (h : Heap) (a v : Int) :
    (h.setWord a v).litUnallocated = h.litUnallocated := rfl

end Heap

namespace Heap

theorem markOnly_refl (h : Heap) : MarkOnly h h := by
  refine ⟨rfl, rfl, rfl, rfl, rfl, rfl, rfl, rfl, rfl, rfl, rfl, fun a => Or.inl rfl⟩

theorem markOnly_trans {h1 h2 h3 : Heap} (p : MarkOnly h1 h2) (q : MarkOnly h2 h3) :
    MarkOnly h1 h3 := by
  obtain ⟨s1, f1, sp1, lf1, lt1, ln1, lu1, lua1, g1, w1, r1, m1⟩ := p
  obtain ⟨s2, f2, sp2, lf2, lt2, ln2, lu2, lua2, g2, w2, r2, m2⟩ := q
  refine ⟨s2.trans s1, f2.trans f1, sp2.trans sp1, lf2.trans lf1, lt2.trans lt1,
    ln2.trans ln1, lu2.trans lu1, lua2.trans lua1, g2.trans g1, w2.trans w1, r2.trans r1, ?_⟩
  intro a
  rcases m1 a with e1 | ⟨t, c, meta, hb, ha⟩ | ⟨v, hb, ha⟩
  · rcases m2 a with e2 | ⟨t, c, meta, hb, ha⟩ | ⟨v, hb, ha⟩
    · exact Or.inl (e2.trans e1)
    · exact Or.inr (Or.inl ⟨t, c, meta, e1 ▸ hb, ha⟩)
    · exact Or.inr (Or.inr ⟨v, e1 ▸ hb, ha⟩)
  · rcases m2 a with e2 | ⟨t', c', meta', hb', ha'⟩ | ⟨v', hb', ha'⟩
    · exact Or.inr (Or.inl ⟨t, c, meta, hb, e2.trans ha⟩)
    · rw [ha] at hb'; cases hb'
    · rw [ha] at hb'; cases hb'
  · rcases m2 a with e2 | ⟨t', c', meta', hb', ha'⟩ | ⟨v', hb', ha'⟩
    · exact Or.inr (Or.inr ⟨v, hb, e2.trans ha⟩)
    · rw [ha] at hb'; cases hb'
    · rw [ha] at hb'; cases hb'

theorem mark_markOnly (h : Heap) (a : Int) : MarkOnly h (h.mark a) := by
  unfold mark
  cases hm : h.mem a with
  | header t m c meta =>
    cases m with
    | false =>
      refine ⟨rfl, rfl, rfl, rfl, rfl, rfl, rfl, rfl, rfl, rfl, rfl, fun b => ?_⟩
      by_cases hb : b = a
      · subst hb; exact Or.inr (Or.inl ⟨t, c, meta, hm, by simp⟩)
      · exact Or.inl (by simp [hb])
    | true =>
      refine ⟨rfl, rfl, rfl, rfl, rfl, rfl, rfl, rfl, rfl, rfl, rfl, fun b => ?_⟩
      by_cases hb : b = a
      · subst hb; exact Or.inl (by simp [hm])
      · exact Or.inl (by simp [hb])
  | data v =>
    refine ⟨rfl, rfl, rfl, rfl, rfl, rfl, rfl, rfl, rfl, rfl, rfl, fun b => ?_⟩
    by_cases hb : b = a
    · subst hb; exact Or.inr (Or.inr ⟨v, hm, by simp⟩)
    · exact Or.inl (by simp [hb])

theorem markChildrenGo_markOnly (f : Int → Heap → Except String Heap)
    (hf : ∀ (a : Int) (h h' : Heap), f a h = Except.ok h' → MarkOnly h h') :
    ∀ (k i : Nat) (a : Int) (h h' : Heap),
      markChildrenGo f a i k h = Except.ok h' → MarkOnly h h' := by
  intro k
  induction k with
  | zero =>
    intro i a h h' hok
    cases hok
    exact markOnly_refl h
  | succ k ihk =>
    intro i a h h' hok
    unfold markChildrenGo at hok
    cases hrec : f (h.getWord (a + i)) h with
    | error e => rw [hrec] at hok; cases hok
    | ok hmid =>
      rw [hrec] at hok
      exact markOnly_trans (hf _ _ _ hrec) (ihk _ _ _ _ hok)

theorem markRecursiveF_markOnly :
    ∀ fuel (a : Int) (h h' : Heap), markRecursiveF fuel a h = Except.ok h' → MarkOnly h h' := by
  intro fuel
  induction fuel with
  | zero => intro a h h' hok; simp [markRecursiveF] at hok
  | succ fuel ih =>
    intro a h h' hok
    unfold markRecursiveF at hok
    by_cases hm : h.isMarked a
    · simp [hm] at hok; exact hok ▸ markOnly_refl h
    · by_cases hf : h.isFree a
      · simp [hm, hf] at hok; exact hok ▸ markOnly_refl h
      · simp [hm, hf] at hok
        exact markOnly_trans (mark_markOnly h a)
          (markChildrenGo_markOnly (markRecursiveF fuel) ih _ _ _ _ _ hok)

theorem markChildrenF_markOnly (fuel : Nat) (a : Int) (i k : Nat) (h h' : Heap)
    (hok : markChildrenF fuel a i k h = Except.ok h') : MarkOnly h h' :=
  markChildrenGo_markOnly (markRecursiveF fuel) (markRecursiveF_markOnly fuel) k i a h h' hok

theorem markListF_markOnly (fuel : Nat) :
    ∀ (l : List Int) (h h' : Heap), markListF fuel l h = Except.ok h' → MarkOnly h h' := by
  intro l
  induction l with
  | nil => intro h h' hok; simp [markListF] at hok; exact hok ▸ markOnly_refl h
  | cons a rest ih =>
    intro h h' hok
    unfold markListF at hok
    cases hrec : markRecursiveF fuel a h with
    | error e => rw [hrec] at hok; cases hok
    | ok hmid =>
      rw [hrec] at hok
      exact markOnly_trans (markRecursiveF_markOnly _ _ _ _ hrec) (ih _ _ hok)

end Heap

namespace Heap

theorem mem_mark (h : Heap) (b s : Int) :
    (h.mark b).mem s = if s = b then markedWord (h.mem b) else h.mem s := by
  unfold mark
  cases hm : h.mem b <;> simp [markedWord, hm, writeMem]

theorem mem_unmark (h : Heap) (b s : Int) :
    (h.unmark b).mem s = if s = b then unmarkedWord (h.mem b) else h.mem s := by
  unfold unmark
  cases hm : h.mem b <;> simp [unmarkedWord, hm, writeMem]

theorem mem_setTag_ne (h : Heap) (a : Int) (t : Nat) (b : Int) (hb : b ≠ a) :
    (h.setTag a t).mem b = h.mem b := by
  unfold setTag
  cases h.mem a <;> simp [writeMem, hb]

theorem mem_setMeta_ne (h : Heap) (a : Int) (v : Int) (b : Int) (hb : b ≠ a) :
    (h.setMeta a v).mem b = h.mem b := by
  unfold setMeta
  cases h.mem a <;> simp [writeMem, hb]

theorem mem_setFreePointerAtAddress_ne (h : Heap) (a next b : Int) (hb : b ≠ a) :
    (h.setFreePointerAtAddress a next).mem b = h.mem b := by
  unfold setFreePointerAtAddress
  rw [mem_setMeta_ne _ _ _ _ hb, mem_setTag_ne _ _ _ _ hb]

theorem mem_free_ne (h : Heap) (a b : Int) (hb : b ≠ a) :
    (h.free a).mem b = h.mem b := by
  unfold free
  exact mem_setFreePointerAtAddress_ne _ _ _ _ hb

/-- all the writers used by the sweep leave these fields alone. -/
theorem fields_setTag (h : Heap) (a : Int) (t : Nat) :
    (h.setTag a t).sizeBytes = h.sizeBytes ∧ (h.setTag a t).litFalse = h.litFalse ∧
    (h.setTag a t).litTrue = h.litTrue ∧ (h.setTag a t).litNull = h.litNull ∧
    (h.setTag a t).litUndefined = h.litUndefined ∧
    (h.setTag a t).litUnallocated = h.litUnallocated ∧
    (h.setTag a t).globalEnv = h.globalEnv ∧ (h.setTag a t).working = h.working ∧
    (h.setTag a t).runnerRoots = h.runnerRoots ∧
    (h.setTag a t).freePointer = h.freePointer ∧ (h.setTag a t).stringPool = h.stringPool := by
  unfold setTag
  cases h.mem a <;> exact ⟨rfl, rfl, rfl, rfl, rfl, rfl, rfl, rfl, rfl, rfl, rfl⟩

theorem fields_setMeta (h : Heap) (a v : Int) :
    (h.setMeta a v).sizeBytes = h.sizeBytes ∧ (h.setMeta a v).litFalse = h.litFalse ∧
    (h.setMeta a v).litTrue = h.litTrue ∧ (h.setMeta a v).litNull = h.litNull ∧
    (h.setMeta a v).litUndefined = h.litUndefined ∧
    (h.setMeta a v).litUnallocated = h.litUnallocated ∧
    (h.setMeta a v).globalEnv = h.globalEnv ∧ (h.setMeta a v).working = h.working ∧
    (h.setMeta a v).runnerRoots = h.runnerRoots ∧
    (h.setMeta a v).freePointer = h.freePointer ∧ (h.setMeta a v).stringPool = h.stringPool := by
  unfold setMeta
  cases h.mem a <;> exact ⟨rfl, rfl, rfl, rfl, rfl, rfl, rfl, rfl, rfl, rfl, rfl⟩

theorem sweepFields_refl (h : Heap) : SweepFields h h :=
  ⟨rfl, rfl, rfl, rfl, rfl, rfl, rfl, rfl, rfl⟩

theorem sweepFields_trans {h1 h2 h3 : Heap} (p : SweepFields h1 h2) (q : SweepFields h2 h3) :
    SweepFields h1 h3 := by
  obtain ⟨a1, a2, a3, a4, a5, a6, a7, a8, a9⟩ := p
  obtain ⟨b1, b2, b3, b4, b5, b6, b7, b8, b9⟩ := q
  exact ⟨b1.trans a1, b2.trans a2, b3.trans a3, b4.trans a4, b5.trans a5, b6.trans a6,
    b7.trans a7, b8.trans a8, b9.trans a9⟩

theorem sweepFields_free (h : Heap) (a : Int) : SweepFields h (h.free a) := by
  unfold free setFreePointerAtAddress
  obtain ⟨s, f1, t1, n1, u1, ua1, g1, w1, r1, _, _⟩ := fields_setMeta (h.setTag a tagFREE) a h.freePointer
  obtain ⟨s2, f2, t2, n2, u2, ua2, g2, w2, r2, _, _⟩ := fields_setTag h a tagFREE
  exact ⟨s.trans s2, f1.trans f2, t1.trans t2, n1.trans n2, u1.trans u2, ua1.trans ua2,
    g1.trans g2, w1.trans w2, r1.trans r2⟩

theorem sweepFields_unmark (h : Heap) (a : Int) : SweepFields h (h.unmark a) := by
  unfold unmark
  cases h.mem a <;> exact ⟨rfl, rfl, rfl, rfl, rfl, rfl, rfl, rfl, rfl⟩

theorem sweepLoop_sweepFields : ∀ (k : Nat) (cur : Int) (h : Heap),
    SweepFields h (sweepLoop k cur h) := by
  intro k
  induction k with
  | zero => intro cur h; exact sweepFields_refl h
  | succ k ih =>
    intro cur h
    unfold sweepLoop
    by_cases hc : cur * 8 < (h.sizeBytes : Int)
    · simp only [hc, if_pos]
      refine sweepFields_trans ?_ (ih _ _)
      by_cases hfree : ¬ h.isMarked cur ∧ ¬ h.isFree cur
      · simp only [hfree, if_pos]
        refine sweepFields_trans ?_ (sweepFields_unmark _ _)
        by_cases hs : h.isString cur
        · simp only [hs, if_pos]
          refine sweepFields_trans ?_ (sweepFields_free _ _)
          exact ⟨rfl, rfl, rfl, rfl, rfl, rfl, rfl, rfl, rfl⟩
        · simp only [hs, if_neg, ite_false]
          exact sweepFields_free _ _
      · simp only [hfree, if_neg, ite_false]
        exact sweepFields_unmark _ _
    · simp only [hc, if_neg, ite_false]
      exact sweepFields_refl h

end Heap

namespace Heap

/-- the body of one sweep iteration only writes the node at `cur`. -/
theorem sweepLoop_mem_untouched : ∀ (k : Nat) (cur : Int) (h : Heap) (s : Int),
    (∀ j : Nat, s ≠ cur + 10 * j) → (sweepLoop k cur h).mem s = h.mem s := by
  intro k
  induction k with
  | zero => intro cur h s _; rfl
  | succ k ih =>
    intro cur h s hs
    have hs0 : s ≠ cur := by simpa using hs 0
    have hsrest : ∀ j : Nat, s ≠ (cur + 10) + 10 * j := by
      intro j
      have := hs (j + 1)
      omega
    unfold sweepLoop
    by_cases hc : cur * 8 < (h.sizeBytes : Int)
    · simp only [hc, if_pos]
      rw [ih _ _ _ hsrest, mem_unmark, if_neg hs0]
      by_cases hfree : ¬ h.isMarked cur ∧ ¬ h.isFree cur
      · simp only [hfree, if_pos]
        by_cases hstr : h.isString cur
        · simp only [hstr, if_pos]
          exact mem_free_ne _ _ _ hs0
        · simp only [hstr, if_neg, ite_false]
          exact mem_free_ne _ _ _ hs0
      · simp only [hfree, if_neg, ite_false]
    · simp only [hc, if_neg, ite_false]

/-- a marked header survives the sweep with its tag, child count and metadata
    intact (possibly unmarked). -/
theorem sweepLoop_marked : ∀ (k : Nat) (cur : Int) (h : Heap) (s : Int) (t : Nat)
    (c : Nat) (meta : Int), h.mem s = Word.header t true c meta →
    ∃ m', (sweepLoop k cur h).mem s = Word.header t m' c meta := by
  intro k
  induction k with
  | zero => intro cur h s t c meta hm; exact ⟨true, hm⟩
  | succ k ih =>
    intro cur h s t c meta hm
    unfold sweepLoop
    by_cases hc : cur * 8 < (h.sizeBytes : Int)
    · simp only [hc, if_pos]
      by_cases hcur : s = cur
      · subst hcur
        have hmarked : h.isMarked s = true := by unfold isMarked; rw [hm]
        have hguard : ¬ (¬ h.isMarked s ∧ ¬ h.isFree s) := by
          intro hcontra; rw [hmarked] at hcontra; simp at hcontra
        simp only [hguard, if_neg, ite_false]
        refine ⟨false, ?_⟩
        have hnotvisited : ∀ j : Nat, s ≠ (s + 10) + 10 * j := by intro j; omega
        rw [sweepLoop_mem_untouched _ _ _ _ hnotvisited, mem_unmark, if_pos rfl, hm]
        rfl
      · have hbody : ∀ h1 : Heap, h1.mem s = h.mem s →
            ((h1.unmark cur).mem s = Word.header t true c meta) := by
          intro h1 h1s
          rw [mem_unmark, if_neg hcur, h1s, hm]
        by_cases hfree : ¬ h.isMarked cur ∧ ¬ h.isFree cur
        · simp only [hfree, if_pos]
          by_cases hstr : h.isString cur
          · simp only [hstr, if_pos]
            exact ih _ _ _ _ _ _ (hbody _ (mem_free_ne _ _ _ hcur))
          · simp only [hstr, if_neg, ite_false]
            exact ih _ _ _ _ _ _ (hbody _ (mem_free_ne _ _ _ hcur))
        · simp only [hfree, if_neg, ite_false]
          exact ih _ _ _ _ _ _ (hbody _ rfl)
    · simp only [hc, if_neg, ite_false]
      exact ⟨true, hm⟩

end Heap

namespace Heap

theorem markOnly_sweepFields {h h' : Heap} (p : MarkOnly h h') : SweepFields h h' := by
  obtain ⟨s, _, _, lf, lt, ln, lu, lua, g, w, r, _⟩ := p
  exact ⟨s, lf, lt, ln, lu, lua, g, w, r⟩

/-- all fields of `mark` are preserved except `mem`. -/
theorem mark_fields (h : Heap) (a : Int) :
    (h.mark a).sizeBytes = h.sizeBytes ∧ (h.mark a).freePointer = h.freePointer ∧
    (h.mark a).stringPool = h.stringPool ∧ (h.mark a).litFalse = h.litFalse ∧
    (h.mark a).litTrue = h.litTrue ∧ (h.mark a).litNull = h.litNull ∧
    (h.mark a).litUndefined = h.litUndefined ∧
    (h.mark a).litUnallocated = h.litUnallocated ∧ (h.mark a).globalEnv = h.globalEnv ∧
    (h.mark a).working = h.working ∧ (h.mark a).runnerRoots = h.runnerRoots := by
  unfold mark
  cases h.mem a <;> exact ⟨rfl, rfl, rfl, rfl, rfl, rfl, rfl, rfl, rfl, rfl, rfl⟩

/-- the heap after the five singleton marks at the head of `garbageCollect`. -/
theorem gc_decompose (fuel : Nat) (h h' : Heap)
    (hgc : garbageCollect fuel h = Except.ok h') :
    ∃ h1 h2 h3,
      markListF fuel
          (((((h.mark h.litFalse).mark h.litTrue).mark h.litNull).mark
              h.litUndefined).mark h.litUnallocated).working
          (((((h.mark h.litFalse).mark h.litTrue).mark h.litNull).mark
              h.litUndefined).mark h.litUnallocated) = Except.ok h1 ∧
      markRecursiveF fuel h1.globalEnv h1 = Except.ok h2 ∧
      markListF fuel h2.runnerRoots h2 = Except.ok h3 ∧
      h' = h3.sweep := by
  unfold garbageCollect at hgc
  simp only [] at hgc
  cases hW : markListF fuel
      (((((h.mark h.litFalse).mark h.litTrue).mark h.litNull).mark
          h.litUndefined).mark h.litUnallocated).working
      (((((h.mark h.litFalse).mark h.litTrue).mark h.litNull).mark
          h.litUndefined).mark h.litUnallocated) with
  | error e => rw [hW] at hgc; cases hgc
  | ok h1 =>
    rw [hW] at hgc
    simp only [] at hgc
    cases hG : markRecursiveF fuel h1.globalEnv h1 with
    | error e => rw [hG] at hgc; cases hgc
    | ok h2 =>
      rw [hG] at hgc
      simp only [] at hgc
      cases hR : markListF fuel h2.runnerRoots h2 with
      | error e => rw [hR] at hgc; cases hgc
      | ok h3 =>
        rw [hR] at hgc
        simp only [] at hgc
        cases hgc
        exact ⟨h1, h2, h3, rfl, hG, hR, rfl⟩

theorem garbageCollect_sweepFields (fuel : Nat) (h h' : Heap)
    (hgc : garbageCollect fuel h = Except.ok h') : SweepFields h h' := by
  obtain ⟨h1, h2, h3, hW, hG, hR, hfin⟩ := gc_decompose fuel h h' hgc
  have mk1 : ∀ (hh : Heap) (a : Int), SweepFields hh (hh.mark a) := by
    intro hh a
    obtain ⟨s, _, _, lf, lt, ln, lu, lua, g, w, r⟩ := mark_fields hh a
    exact ⟨s, lf, lt, ln, lu, lua, g, w, r⟩
  have m5 : SweepFields h
      (((((h.mark h.litFalse).mark h.litTrue).mark h.litNull).mark
          h.litUndefined).mark h.litUnallocated) :=
    sweepFields_trans (sweepFields_trans (sweepFields_trans (sweepFields_trans
      (mk1 _ _) (mk1 _ _)) (mk1 _ _)) (mk1 _ _)) (mk1 _ _)
  refine sweepFields_trans m5 ?_
  refine sweepFields_trans (markOnly_sweepFields (markListF_markOnly _ _ _ _ hW)) ?_
  refine sweepFields_trans (markOnly_sweepFields (markRecursiveF_markOnly _ _ _ _ hG)) ?_
  refine sweepFields_trans (markOnly_sweepFields (markListF_markOnly _ _ _ _ hR)) ?_
  subst hfin
  exact sweepLoop_sweepFields _ _ _

/-- a header stays a marked header across any `MarkOnly` evolution. -/
theorem markOnly_marked_header {h h' : Heap} (p : MarkOnly h h') (s : Int) (t : Nat)
    (c : Nat) (meta : Int) (hm : h.mem s = Word.header t true c meta) :
    h'.mem s = Word.header t true c meta := by
  rcases p.2.2.2.2.2.2.2.2.2.2.2 s with e | ⟨t', c', meta', hb, ha⟩ | ⟨v, hb, ha⟩
  · rw [e, hm]
  · rw [hm] at hb; cases hb
  · rw [hm] at hb; cases hb

/-- marking any of the five singletons first turns a singleton header into a
    marked header, whichever other addresses are marked along the way. -/
theorem mem_mark_seq (h : Heap) (b s : Int) (t : Nat) (c : Nat) (meta : Int) :
    h.mem s = Word.header t true c meta → (h.mark b).mem s = Word.header t true c meta := by
  intro hm
  by_cases hsb : s = b
  · subst hsb
    rw [mem_mark, if_pos rfl, hm]
    rfl
  · rw [mem_mark, if_neg hsb]
    exact hm

end Heap

namespace Heap

/-- reading the copy loop: words `0 .. n-1` come from the old buffer, the rest
    from the fresh one. -/
theorem copyWordsLoop_read (old : Int → Word) : ∀ (n : Nat) (m : Int → Word) (b : Int),
    copyWordsLoop old n m b = if 0 ≤ b ∧ b < (n : Int) then old b else m b := by
  intro n
  induction n with
  | zero =>
    intro m b
    simp only [copyWordsLoop, Nat.cast_zero]
    rw [if_neg (by omega)]
  | succ n ih =>
    intro m b
    unfold copyWordsLoop
    by_cases hb : b = (n : Int)
    · subst hb
      simp only [if_pos rfl]
      rw [if_pos]
      omega
    · simp only [hb, if_neg, ite_false, ih]
      by_cases hr : 0 ≤ b ∧ b < (n : Int)
      · rw [if_pos hr, if_pos]; omega
      · rw [if_neg hr, if_neg]; omega

/-- the free-list initialization loop never writes below its cursor. -/
theorem initFreeListLoop_mem_lt : ∀ (k : Nat) (i : Int) (alloc : Nat) (h : Heap) (b : Int),
    b < i → (initFreeListLoop k i alloc h).mem b = h.mem b := by
  intro k
  induction k with
  | zero => intro i alloc h b _; rfl
  | succ k ih =>
    intro i alloc h b hb
    unfold initFreeListLoop
    by_cases hc : (i + 10) * 8 < (alloc : Int)
    · simp only [hc, if_pos]
      rw [ih _ _ _ _ (by omega), mem_setFreePointerAtAddress_ne _ _ _ _ (by omega)]
    · simp only [hc, if_neg, ite_false]
      exact mem_setFreePointerAtAddress_ne _ _ _ _ (by omega)

/-- the free-list initialization loop does not touch any non-`mem` field. -/
theorem initFreeListLoop_fields : ∀ (k : Nat) (i : Int) (alloc : Nat) (h : Heap),
    (initFreeListLoop k i alloc h).sizeBytes = h.sizeBytes ∧
    (initFreeListLoop k i alloc h).freePointer = h.freePointer ∧
    (initFreeListLoop k i alloc h).stringPool = h.stringPool ∧
    (initFreeListLoop k i alloc h).litFalse = h.litFalse ∧
    (initFreeListLoop k i alloc h).litTrue = h.litTrue ∧
    (initFreeListLoop k i alloc h).litNull = h.litNull ∧
    (initFreeListLoop k i alloc h).litUndefined = h.litUndefined ∧
    (initFreeListLoop k i alloc h).litUnallocated = h.litUnallocated ∧
    (initFreeListLoop k i alloc h).globalEnv = h.globalEnv ∧
    (initFreeListLoop k i alloc h).working = h.working ∧
    (initFreeListLoop k i alloc h).runnerRoots = h.runnerRoots := by
  intro k
  induction k with
  | zero =>
    intro i alloc h
    exact ⟨rfl, rfl, rfl, rfl, rfl, rfl, rfl, rfl, rfl, rfl, rfl⟩
  | succ k ih =>
    intro i alloc h
    unfold initFreeListLoop
    have hset : ∀ (hh : Heap) (a next : Int),
        (hh.setFreePointerAtAddress a next).sizeBytes = hh.sizeBytes ∧
        (hh.setFreePointerAtAddress a next).freePointer = hh.freePointer ∧
        (hh.setFreePointerAtAddress a next).stringPool = hh.stringPool ∧
        (hh.setFreePointerAtAddress a next).litFalse = hh.litFalse ∧
        (hh.setFreePointerAtAddress a next).litTrue = hh.litTrue ∧
        (hh.setFreePointerAtAddress a next).litNull = hh.litNull ∧
        (hh.setFreePointerAtAddress a next).litUndefined = hh.litUndefined ∧
        (hh.setFreePointerAtAddress a next).litUnallocated = hh.litUnallocated ∧
        (hh.setFreePointerAtAddress a next).globalEnv = hh.globalEnv ∧
        (hh.setFreePointerAtAddress a next).working = hh.working ∧
        (hh.setFreePointerAtAddress a next).runnerRoots = hh.runnerRoots := by
      intro hh a next
      unfold setFreePointerAtAddress
      obtain ⟨m1, m2, m3, m4, m5, m6, m7, m8, m9, m10, m11⟩ := fields_setMeta (hh.setTag a tagFREE) a next
      obtain ⟨t1, t2, t3, t4, t5, t6, t7, t8, t9, t10, t11⟩ := fields_setTag hh a tagFREE
      exact ⟨m1.trans t1, m10.trans t10, m11.trans t11, m2.trans t2, m3.trans t3,
        m4.trans t4, m5.trans t5, m6.trans t6, m7.trans t7, m8.trans t8, m9.trans t9⟩
    by_cases hc : (i + 10) * 8 < (alloc : Int)
    · simp only [hc, if_pos]
      obtain ⟨a1, a2, a3, a4, a5, a6, a7, a8, a9, a10, a11⟩ := ih (i + 10) alloc (h.setFreePointerAtAddress i (i + 10))
      obtain ⟨b1, b2, b3, b4, b5, b6, b7, b8, b9, b10, b11⟩ := hset h i (i + 10)
      exact ⟨a1.trans b1, a2.trans b2, a3.trans b3, a4.trans b4, a5.trans b5, a6.trans b6,
        a7.trans b7, a8.trans b8, a9.trans b9, a10.trans b10, a11.trans b11⟩
    · simp only [hc, if_neg, ite_false]
      exact hset h i (-1)

/-- `resizeHeap` doubles the buffer, keeps every old allocable word at its
    address, keeps every non-`mem` field except the free pointer, and points
    the free pointer at the first fresh node. -/
theorem resizeHeap_spec (h : Heap) :
    (h.resizeHeap).sizeBytes = 2 * h.sizeBytes ∧
    (h.resizeHeap).freePointer =
      ((h.sizeBytes - h.sizeBytes % (NODE_SIZE * WORD_SIZE)) / WORD_SIZE : Nat) ∧
    (∀ b : Int, 0 ≤ b →
      b < ((h.sizeBytes - h.sizeBytes % (NODE_SIZE * WORD_SIZE)) / WORD_SIZE : Nat) →
      (h.resizeHeap).mem b = h.mem b) ∧
    (h.resizeHeap).stringPool = h.stringPool ∧
    (h.resizeHeap).litFalse = h.litFalse ∧ (h.resizeHeap).litTrue = h.litTrue ∧
    (h.resizeHeap).litNull = h.litNull ∧ (h.resizeHeap).litUndefined = h.litUndefined ∧
    (h.resizeHeap).litUnallocated = h.litUnallocated ∧
    (h.resizeHeap).globalEnv = h.globalEnv ∧ (h.resizeHeap).working = h.working ∧
    (h.resizeHeap).runnerRoots = h.runnerRoots := by
  unfold resizeHeap
  obtain ⟨f1, f2, f3, f4, f5, f6, f7, f8, f9, f10, f11⟩ :=
    initFreeListLoop_fields
      ((h.sizeBytes * 2 - h.sizeBytes * 2 % (NODE_SIZE * WORD_SIZE)) / (NODE_SIZE * WORD_SIZE) + 1)
      (((h.sizeBytes - h.sizeBytes % (NODE_SIZE * WORD_SIZE)) / WORD_SIZE : Nat) : Int)
      (h.sizeBytes * 2 - h.sizeBytes * 2 % (NODE_SIZE * WORD_SIZE))
      { h with
        mem := copyWordsLoop h.mem ((h.sizeBytes - h.sizeBytes % (NODE_SIZE * WORD_SIZE)) / WORD_SIZE)
          (fun _ => Word.header 0 false 0 0)
        sizeBytes := h.sizeBytes * 2
        freePointer := (((h.sizeBytes - h.sizeBytes % (NODE_SIZE * WORD_SIZE)) / WORD_SIZE : Nat) : Int) }
  refine ⟨f1.trans (by simp [Nat.mul_comm]), f2.trans rfl, ?_, f3, f4, f5, f6, f7, f8, f9, f10, f11⟩
  intro b hb0 hblt
  rw [initFreeListLoop_mem_lt _ _ _ _ _ (by exact_mod_cast hblt)]
  show copyWordsLoop h.mem _ _ b = h.mem b
  rw [copyWordsLoop_read]
  rw [if_pos ⟨hb0, by exact_mod_cast hblt⟩]

end Heap

namespace Heap

theorem mem_mark_weak (h : Heap) (b s : Int) (t : Nat) (m : Bool) (c : Nat) (meta : Int)
    (hm : h.mem s = Word.header t m c meta) :
    ∃ m2, (h.mark b).mem s = Word.header t m2 c meta := by
  rw [mem_mark]
  by_cases hsb : s = b
  · subst hsb
    rw [if_pos rfl, hm]
    exact ⟨true, rfl⟩
  · rw [if_neg hsb]; exact ⟨m, hm⟩

theorem mem_mark_self (h : Heap) (s : Int) (t : Nat) (m : Bool) (c : Nat) (meta : Int)
    (hm : h.mem s = Word.header t m c meta) :
    (h.mark s).mem s = Word.header t true c meta := by
  rw [mem_mark, if_pos rfl, hm]
  rfl

theorem getTag_of_mem (h : Heap) (s : Int) (t : Nat) (m : Bool) (c : Nat) (meta : Int)
    (hm : h.mem s = Word.header t m c meta) : h.getTag s = t := by
  unfold getTag; rw [hm]

/-- after the five literal marks at the head of the collector every singleton
    header is marked, with tag, child count and metadata untouched. -/
theorem marks5_mem (h : Heap) (s : Int) (t : Nat) (m : Bool) (c : Nat) (meta : Int)
    (hs : s = h.litFalse ∨ s = h.litTrue ∨ s = h.litNull ∨ s = h.litUndefined ∨
          s = h.litUnallocated)
    (hm : h.mem s = Word.header t m c meta) :
    (((((h.mark h.litFalse).mark h.litTrue).mark h.litNull).mark
        h.litUndefined).mark h.litUnallocated).mem s = Word.header t true c meta := by
  rcases hs with h1 | h2 | h3 | h4 | h5
  · subst h1
    exact mem_mark_seq _ _ _ _ _ _ (mem_mark_seq _ _ _ _ _ _ (mem_mark_seq _ _ _ _ _ _
      (mem_mark_seq _ _ _ _ _ _ (mem_mark_self _ _ _ _ _ _ hm))))
  · obtain ⟨m2, hm2⟩ := mem_mark_weak h h.litFalse s _ _ _ _ hm
    subst h2
    exact mem_mark_seq _ _ _ _ _ _ (mem_mark_seq _ _ _ _ _ _ (mem_mark_seq _ _ _ _ _ _
      (mem_mark_self _ _ _ _ _ _ hm2)))
  · obtain ⟨m2, hm2⟩ := mem_mark_weak h h.litFalse s _ _ _ _ hm
    obtain ⟨m3, hm3⟩ := mem_mark_weak _ h.litTrue s _ _ _ _ hm2
    subst h3
    exact mem_mark_seq _ _ _ _ _ _ (mem_mark_seq _ _ _ _ _ _ (mem_mark_self _ _ _ _ _ _ hm3))
  · obtain ⟨m2, hm2⟩ := mem_mark_weak h h.litFalse s _ _ _ _ hm
    obtain ⟨m3, hm3⟩ := mem_mark_weak _ h.litTrue s _ _ _ _ hm2
    obtain ⟨m4, hm4⟩ := mem_mark_weak _ h.litNull s _ _ _ _ hm3
    subst h4
    exact mem_mark_seq _ _ _ _ _ _ (mem_mark_self _ _ _ _ _ _ hm4)
  · obtain ⟨m2, hm2⟩ := mem_mark_weak h h.litFalse s _ _ _ _ hm
    obtain ⟨m3, hm3⟩ := mem_mark_weak _ h.litTrue s _ _ _ _ hm2
    obtain ⟨m4, hm4⟩ := mem_mark_weak _ h.litNull s _ _ _ _ hm3
    obtain ⟨m5, hm5⟩ := mem_mark_weak _ h.litUndefined s _ _ _ _ hm4
    subst h5
    exact mem_mark_self _ _ _ _ _ _ hm5

end Heap

/-- C8: the five singleton literal addresses are never moved or freed by a
    collection or a resize: after any successful `garbageCollect()` the
    literal-address fields are unchanged and each singleton address still
    holds a header node with its original tag, child count and metadata
    (only the gc mark bit may differ); and `resizeHeap()` keeps the
    literal-address fields and copies every old allocable word - hence every
    singleton header - verbatim to the same address. -/
theorem C8_singleton_literals_survive_gc_and_resize (fuel : Nat) (h h' : Heap)
    (hgc : Heap.garbageCollect fuel h = Except.ok h') :
    (h'.litFalse = h.litFalse ∧ h'.litTrue = h.litTrue ∧ h'.litNull = h.litNull ∧
     h'.litUndefined = h.litUndefined ∧ h'.litUnallocated = h.litUnallocated) ∧
    (∀ (s : Int) t m c meta,
       (s = h.litFalse ∨ s = h.litTrue ∨ s = h.litNull ∨ s = h.litUndefined ∨
        s = h.litUnallocated) →
       h.mem s = Word.header t m c meta →
       ∃ m', h'.mem s = Word.header t m' c meta ∧ h'.getTag s = t) ∧
    ((h.resizeHeap).litFalse = h.litFalse ∧ (h.resizeHeap).litTrue = h.litTrue ∧
     (h.resizeHeap).litNull = h.litNull ∧ (h.resizeHeap).litUndefined = h.litUndefined ∧
     (h.resizeHeap).litUnallocated = h.litUnallocated) ∧
    (∀ (s : Int) t m c meta,
       0 ≤ s → s < (((h.sizeBytes - h.sizeBytes % (NODE_SIZE * WORD_SIZE)) / WORD_SIZE : Nat) : Int) →
       h.mem s = Word.header t m c meta →
       (h.resizeHeap).mem s = Word.header t m c meta ∧ (h.resizeHeap).getTag s = t) := by
  obtain ⟨h1, h2, h3, hW, hG, hR, hfin⟩ := Heap.gc_decompose fuel h h' hgc
  obtain ⟨fs, ff, ft, fn, fu, fua, fg, fw, fr⟩ := Heap.garbageCollect_sweepFields fuel h h' hgc
  obtain ⟨rs, rfp, rmem, rsp, rf, rt, rn, ru, rua, rg, rw, rr⟩ := Heap.resizeHeap_spec h
  refine ⟨⟨ff, ft, fn, fu, fua⟩, ?_, ⟨rf, rt, rn, ru, rua⟩, ?_⟩
  · intro s t m c meta hs hm
    have m5 := Heap.marks5_mem h s t m c meta hs hm
    have mW := Heap.markOnly_marked_header (Heap.markListF_markOnly _ _ _ _ hW) s t c meta m5
    have mG := Heap.markOnly_marked_header (Heap.markRecursiveF_markOnly _ _ _ _ hG) s t c meta mW
    have mR := Heap.markOnly_marked_header (Heap.markListF_markOnly _ _ _ _ hR) s t c meta mG
    obtain ⟨m', hm'⟩ := Heap.sweepLoop_marked _ 0 h3 s t c meta mR
    subst hfin
    exact ⟨m', hm', Heap.getTag_of_mem _ _ _ _ _ _ hm'⟩
  · intro s t m c meta hs0 hslt hm
    have := rmem s hs0 hslt
    rw [hm] at this
    exact ⟨this, Heap.getTag_of_mem _ _ _ _ _ _ this⟩

/-- C8 witness: on the concrete seven-node heap the collection succeeds and
    the FALSE singleton at address 0 keeps its header and tag. -/
theorem C8_witness :
    ∃ m', c8After.mem 0 = Word.header tagFALSE m' 0 10 ∧ c8After.getTag 0 = tagFALSE :=
  (C8_singleton_literals_survive_gc_and_resize 100 c8Heap c8After (by rfl)).2.1
    0 tagFALSE false 0 10 (Or.inl rfl) rfl

namespace Heap

theorem fields_setNumChildren (h : Heap) (a : Int) (c : Nat) :
    (h.setNumChildren a c).sizeBytes = h.sizeBytes ∧
    (h.setNumChildren a c).freePointer = h.freePointer ∧
    (h.setNumChildren a c).stringPool = h.stringPool ∧
    (h.setNumChildren a c).litFalse = h.litFalse ∧
    (h.setNumChildren a c).litTrue = h.litTrue ∧
    (h.setNumChildren a c).litNull = h.litNull ∧
    (h.setNumChildren a c).litUndefined = h.litUndefined ∧
    (h.setNumChildren a c).litUnallocated = h.litUnallocated ∧
    (h.setNumChildren a c).globalEnv = h.globalEnv ∧
    (h.setNumChildren a c).working = h.working ∧
    (h.setNumChildren a c).runnerRoots = h.runnerRoots := by
  unfold setNumChildren
  cases h.mem a <;> exact ⟨rfl, rfl, rfl, rfl, rfl, rfl, rfl, rfl, rfl, rfl, rfl⟩

theorem fields_unmark (h : Heap) (a : Int) :
    (h.unmark a).sizeBytes = h.sizeBytes ∧ (h.unmark a).freePointer = h.freePointer ∧
    (h.unmark a).stringPool = h.stringPool ∧ (h.unmark a).litFalse = h.litFalse ∧
    (h.unmark a).litTrue = h.litTrue ∧ (h.unmark a).litNull = h.litNull ∧
    (h.unmark a).litUndefined = h.litUndefined ∧
    (h.unmark a).litUnallocated = h.litUnallocated ∧
    (h.unmark a).globalEnv = h.globalEnv ∧ (h.unmark a).working = h.working ∧
    (h.unmark a).runnerRoots = h.runnerRoots := by
  unfold unmark
  cases h.mem a <;> exact ⟨rfl, rfl, rfl, rfl, rfl, rfl, rfl, rfl, rfl, rfl, rfl⟩

/-- the literal-address fields, the size, and the free pointer relation of a
    successful `allocate`: the literals survive, and the node handed out is
    the old free-list head. -/
theorem allocate_ok_spec (fuel tag k : Nat) (h : Heap) (r : Int) (h' : Heap)
    (hok : allocate fuel tag k h = (Except.ok r, h')) :
    r = h.freePointer ∧ h'.litFalse = h.litFalse ∧ h'.litTrue = h.litTrue ∧
    h'.litNull = h.litNull ∧ h'.litUndefined = h.litUndefined ∧
    h'.litUnallocated = h.litUnallocated ∧ h'.freePointer ≠ -1 := by
  unfold allocate at hok
  simp only [] at hok
  cases hfp : h.getFreePointerAtAddress h.freePointer with
  | error e => rw [hfp] at hok; cases hok
  | ok nxt =>
    rw [hfp] at hok
    simp only [] at hok
    by_cases hm1 : nxt = -1
    · subst hm1
      simp only [if_pos rfl] at hok
      cases hgc : garbageCollect fuel { h with freePointer := -1 } with
      | error e => rw [hgc] at hok; cases hok
      | ok h2 =>
        rw [hgc] at hok
        simp only [] at hok
        obtain ⟨_, glf, glt, gln, glu, glua, _, _, _⟩ :=
          garbageCollect_sweepFields fuel { h with freePointer := -1 } h2 hgc
        by_cases hm2 : h2.freePointer = -1
        · rw [if_pos hm2] at hok
          obtain ⟨hfst, hsnd⟩ := Prod.mk.injEq .. ▸ hok
          injection hfst with hfst
          subst hfst
          subst hsnd
          obtain ⟨_, rfp, _, _, rf, rt, rn, ru, rua, _, _, _⟩ := resizeHeap_spec h2
          obtain ⟨_, n2, _, n4, n5, n6, n7, n8, _, _, _⟩ := fields_setNumChildren
            ((h2.resizeHeap.setTag h.freePointer tag).unmark h.freePointer) h.freePointer k
          obtain ⟨_, u2, _, u4, u5, u6, u7, u8, _, _, _⟩ :=
            fields_unmark (h2.resizeHeap.setTag h.freePointer tag) h.freePointer
          obtain ⟨_, t4, t5, t6, t7, t8, _, _, _, t2, _⟩ :=
            fields_setTag h2.resizeHeap h.freePointer tag
          refine ⟨rfl, ?_, ?_, ?_, ?_, ?_, ?_⟩
          · exact n4.trans (u4.trans (t4.trans (rf.trans (glf.trans rfl))))
          · exact n5.trans (u5.trans (t5.trans (rt.trans (glt.trans rfl))))
          · exact n6.trans (u6.trans (t6.trans (rn.trans (gln.trans rfl))))
          · exact n7.trans (u7.trans (t7.trans (ru.trans (glu.trans rfl))))
          · exact n8.trans (u8.trans (t8.trans (rua.trans (glua.trans rfl))))
          · rw [n2, u2, t2, rfp]
            generalize (h2.sizeBytes - h2.sizeBytes % (NODE_SIZE * WORD_SIZE)) / WORD_SIZE = w
            omega
        · rw [if_neg hm2] at hok
          obtain ⟨hfst, hsnd⟩ := Prod.mk.injEq .. ▸ hok
          injection hfst with hfst
          subst hfst
          subst hsnd
          obtain ⟨_, n2, _, n4, n5, n6, n7, n8, _, _, _⟩ := fields_setNumChildren
            ((h2.setTag h.freePointer tag).unmark h.freePointer) h.freePointer k
          obtain ⟨_, u2, _, u4, u5, u6, u7, u8, _, _, _⟩ :=
            fields_unmark (h2.setTag h.freePointer tag) h.freePointer
          obtain ⟨_, t4, t5, t6, t7, t8, _, _, _, t2, _⟩ := fields_setTag h2 h.freePointer tag
          refine ⟨rfl, ?_, ?_, ?_, ?_, ?_, ?_⟩
          · exact n4.trans (u4.trans (t4.trans (glf.trans rfl)))
          · exact n5.trans (u5.trans (t5.trans (glt.trans rfl)))
          · exact n6.trans (u6.trans (t6.trans (gln.trans rfl)))
          · exact n7.trans (u7.trans (t7.trans (glu.trans rfl)))
          · exact n8.trans (u8.trans (t8.trans (glua.trans rfl)))
          · rw [n2, u2, t2]
            exact hm2
    · rw [if_neg hm1] at hok
      obtain ⟨hfst, hsnd⟩ := Prod.mk.injEq .. ▸ hok
      injection hfst with hfst
      subst hfst
      subst hsnd
      obtain ⟨_, n2, _, n4, n5, n6, n7, n8, _, _, _⟩ := fields_setNumChildren
        (({ h with freePointer := nxt }.setTag h.freePointer tag).unmark h.freePointer)
        h.freePointer k
      obtain ⟨_, u2, _, u4, u5, u6, u7, u8, _, _, _⟩ :=
        fields_unmark ({ h with freePointer := nxt }.setTag h.freePointer tag) h.freePointer
      obtain ⟨_, t4, t5, t6, t7, t8, _, _, _, t2, _⟩ :=
        fields_setTag { h with freePointer := nxt } h.freePointer tag
      refine ⟨rfl, ?_, ?_, ?_, ?_, ?_, ?_⟩
      · exact n4.trans (u4.trans (t4.trans rfl))
      · exact n5.trans (u5.trans (t5.trans rfl))
      · exact n6.trans (u6.trans (t6.trans rfl))
      · exact n7.trans (u7.trans (t7.trans rfl))
      · exact n8.trans (u8.trans (t8.trans rfl))
      · rw [n2, u2, t2]
        exact hm1

end Heap

/-- C2 (amended): `allocateChannel` establishes the channel invariant
    `hasItem = TRUE iff item is not UNALLOCATED`; `channelPopItem` preserves it;
    `channelPushItem` preserves it whenever the pushed item is not the
    UNALLOCATED singleton itself (pushing UNALLOCATED breaks it - see the
    counterexample); and every erroring call leaves the heap exactly as it
    was. -/
theorem C2_channel_invariant (fuel : Nat) (h h' : Heap) (c v x : Int) :
    (h.litFalse ≠ h.litTrue →
      Heap.allocateChannel fuel h = (Except.ok c, h') → channelInvariant h' c) ∧
    (v ≠ h.litUnallocated →
      Heap.channelPushItem h c v = (Except.ok (), h') → channelInvariant h' c) ∧
    (h.litFalse ≠ h.litTrue →
      Heap.channelPopItem h c = (Except.ok x, h') → channelInvariant h' c) ∧
    (∀ e, Heap.channelPushItem h c v = (Except.error e, h') → h' = h) ∧
    (∀ e, Heap.channelPopItem h c = (Except.error e, h') → h' = h) := by
  refine ⟨?_, ?_, ?_, ?_, ?_⟩
  · intro hne hok
    unfold Heap.allocateChannel at hok
    cases halloc : Heap.allocate fuel tagCHAN 2 h with
    | mk res ha =>
      cases res with
      | error e => rw [halloc] at hok; simp at hok
      | ok addr =>
        rw [halloc] at hok
        simp only [] at hok
        obtain ⟨hfst, hsnd⟩ := Prod.mk.injEq .. ▸ hok
        injection hfst with hfst
        obtain ⟨_, lf, lt, _, _, lua, _⟩ := Heap.allocate_ok_spec fuel tagCHAN 2 h addr ha halloc
        unfold channelInvariant
        rw [← hsnd, ← hfst]
        have hne' : addr + 1 ≠ addr + 2 := by omega
        rw [Heap.getWord_setWord_ne _ _ _ _ hne', Heap.getWord_setWord_self]
        rw [Heap.getWord_setWord_self]
        simp only [Heap.litTrue_setWord, Heap.litUnallocated_setWord, Heap.litFalse_setWord]
        rw [lf, lt, lua]
        constructor
        · intro hFT; exact absurd hFT hne
        · intro hUU; exact absurd rfl hUU
  · intro hv hok
    unfold Heap.channelPushItem at hok
    by_cases hch : ¬ h.isChan c
    · rw [if_pos hch] at hok; simp at hok
    · rw [if_neg hch] at hok
      by_cases hfull : h.getWord (c + 1) = h.litTrue
      · rw [if_pos hfull] at hok; simp at hok
      · rw [if_neg hfull] at hok
        obtain ⟨_, hsnd⟩ := Prod.mk.injEq .. ▸ hok
        unfold channelInvariant
        rw [← hsnd]
        have hne' : c + 2 ≠ c + 1 := by omega
        rw [Heap.getWord_setWord_self, Heap.getWord_setWord_ne _ _ _ _ hne',
          Heap.getWord_setWord_self]
        simp only [Heap.litTrue_setWord, Heap.litUnallocated_setWord]
        constructor
        · intro _; exact hv
        · intro _; trivial
  · intro hne hok
    unfold Heap.channelPopItem at hok
    by_cases hch : ¬ h.isChan c
    · rw [if_pos hch] at hok; simp at hok
    · rw [if_neg hch] at hok
      by_cases hempty : h.getWord (c + 1) = h.litFalse
      · rw [if_pos hempty] at hok; simp at hok
      · rw [if_neg hempty] at hok
        obtain ⟨_, hsnd⟩ := Prod.mk.injEq .. ▸ hok
        unfold channelInvariant
        rw [← hsnd]
        have hne' : c + 2 ≠ c + 1 := by omega
        rw [Heap.getWord_setWord_self, Heap.getWord_setWord_ne _ _ _ _ hne',
          Heap.getWord_setWord_self]
        simp only [Heap.litTrue_setWord, Heap.litUnallocated_setWord, Heap.litFalse_setWord]
        constructor
        · intro hFT; exact absurd hFT.symm (Ne.symm hne)
        · intro hUU; exact absurd rfl hUU
  · intro e hok
    unfold Heap.channelPushItem at hok
    by_cases hch : ¬ h.isChan c
    · rw [if_pos hch] at hok; exact (Prod.mk.injEq .. ▸ hok).2.symm
    · rw [if_neg hch] at hok
      by_cases hfull : h.getWord (c + 1) = h.litTrue
      · rw [if_pos hfull] at hok; exact (Prod.mk.injEq .. ▸ hok).2.symm
      · rw [if_neg hfull] at hok; simp at hok
  · intro e hok
    unfold Heap.channelPopItem at hok
    by_cases hch : ¬ h.isChan c
    · rw [if_pos hch] at hok; exact (Prod.mk.injEq .. ▸ hok).2.symm
    · rw [if_neg hch] at hok
      by_cases hempty : h.getWord (c + 1) = h.litFalse
      · rw [if_pos hempty] at hok; exact (Prod.mk.injEq .. ▸ hok).2.symm
      · rw [if_neg hempty] at hok; simp at hok

/-- C2 counterexample: on a freshly constructed heap, allocate a channel (the
    invariant holds), then push the UNALLOCATED singleton itself: the call
    succeeds, and afterwards `hasItem` is the TRUE singleton while `item` is
    UNALLOCATED, so the biconditional of the claim is violated. -/
theorem C2_push_unallocated_counterexample :
    channelInvariant c2Chan.2 c2Chan.1 ∧
    (Heap.channelPushItem c2Chan.2 c2Chan.1 c2Chan.2.litUnallocated).1 = Except.ok () ∧
    ¬ channelInvariant c2Pushed c2Chan.1 :=
  ⟨by decide, by rfl, by decide⟩

/-- C2 witness: the amended theorem applied to the fresh 4000-byte heap and
    its first channel. -/
theorem C2_witness : channelInvariant c2Chan.2 c2Chan.1 :=
  (C2_channel_invariant 4000 testHeap c2Chan.2 c2Chan.1 0 0).1 (by decide) (by rfl)

namespace Heap

theorem getTag_setWord_preserved (h : Heap) (a v : Int) (b : Int) (hb : b ≠ a) :
    (h.setWord a v).getTag b = h.getTag b := by
  simp [setWord, getTag, hb]

/-- the tag written by the epilogue of `allocate` survives `unmark` and
    `setNumChildren`. -/
theorem finish_getTag (x : Heap) (r : Int) (tag k : Nat) :
    (((x.setTag r tag).unmark r).setNumChildren r k).getTag r = tag := by
  cases hm : x.mem r <;>
    simp [setTag, unmark, setNumChildren, getTag, writeMem, hm]

/-- a successful `allocate` hands back a node whose tag is the requested one. -/
theorem allocate_ok_tag (fuel tag k : Nat) (h : Heap) (r : Int) (h' : Heap)
    (hok : allocate fuel tag k h = (Except.ok r, h')) : h'.getTag r = tag := by
  unfold allocate at hok
  simp only [] at hok
  cases hfp : h.getFreePointerAtAddress h.freePointer with
  | error e => rw [hfp] at hok; simp at hok
  | ok nxt =>
    rw [hfp] at hok
    simp only [] at hok
    by_cases hm1 : nxt = -1
    · subst hm1
      simp only [if_pos rfl] at hok
      cases hgc : garbageCollect fuel { h with freePointer := -1 } with
      | error e => rw [hgc] at hok; simp at hok
      | ok h2 =>
        rw [hgc] at hok
        simp only [] at hok
        obtain ⟨hfst, hsnd⟩ := Prod.mk.injEq .. ▸ hok
        injection hfst with hfst
        subst hfst
        subst hsnd
        exact finish_getTag _ _ _ _
    · rw [if_neg hm1] at hok
      obtain ⟨hfst, hsnd⟩ := Prod.mk.injEq .. ▸ hok
      injection hfst with hfst
      subst hfst
      subst hsnd
      exact finish_getTag _ _ _ _

end Heap

/-! ## C5: the JOF off-by-one -/

/-- C5 (code bug): executing `JOF 5` with the boolean `false` on top of the
    operand stack pops it and sets the program counter to 6 - one past the
    `addr` operand - because the handler runs `programCounter++` after the
    conditional assignment `programCounter = addr`.  The compiler patches
    `jof.addr` to the first instruction of the else branch, so the taken
    branch skips that instruction.  A truthy condition falls through to
    `pc + 1` as the claim states. -/
theorem C5_jof_jumps_one_past_addr :
    executeInstruction (Instr.JOF 5)
        { programCounter := 0, operandStack := [Value.bool false] } (fun _ => default) =
      Except.ok ({ programCounter := 6, operandStack := [] }, fun _ => default,
        SchedEffect.noCall) ∧
    (6 : Nat) ≠ 5 ∧
    executeInstruction (Instr.JOF 5)
        { programCounter := 0, operandStack := [Value.bool true] } (fun _ => default) =
      Except.ok ({ programCounter := 1, operandStack := [] }, fun _ => default,
        SchedEffect.noCall) :=
  ⟨rfl, by decide, rfl⟩

/-! ## C7: the SEND step -/

/-- C7: executing SEND with the stack `value :: channel :: rest`.  On a full
    channel the operand stack is exactly as before the instruction (channel
    below value), the program counter is untouched, only the blocked flag is
    raised and exactly one `(channel, SEND)` wait token is appended, the
    channel store is unchanged, and the goroutine yields into
    `runner.cycleNext()`.  On a non-full channel the value is stored in the
    channel, both operands stay popped, and the program counter advances by
    one. -/
theorem C7_send_step_effect (g : GoState) (chs : ChanStore) (c : Nat) (val : Value)
    (rest : List Value) (hstack : g.operandStack = val :: Value.chanRef c :: rest) :
    ((chs c).isFull = true →
      executeInstruction Instr.SEND g chs =
        Except.ok ({ g with blocked := true,
                            waitingOn := g.waitingOn ++ [(c, ChanOp.SEND)] }, chs,
          SchedEffect.calledCycleNext)) ∧
    ((chs c).isFull = false →
      executeInstruction Instr.SEND g chs =
        Except.ok ({ g with operandStack := rest,
                            programCounter := g.programCounter + 1 },
          (fun j => if j = c then (chs c).send val else chs j),
          SchedEffect.noCall)) := by
  cases g with
  | mk pc ops done blocked waitingOn =>
    simp only [] at hstack
    subst hstack
    constructor
    · intro hfull
      simp only [executeInstruction, hfull]
      rfl
    · intro hfull
      simp only [executeInstruction, hfull]
      rfl

/-- C7 witness: a concrete SEND on an empty channel stores the value and
    advances the program counter. -/
theorem C7_witness :
    executeInstruction Instr.SEND
        { programCounter := 3, operandStack := [Value.num 1, Value.chanRef 0] }
        (fun _ => {}) =
      Except.ok ({ programCounter := 4, operandStack := [] },
        (fun j => if j = 0 then GoChannel.send {} (Value.num 1) else {}),
        SchedEffect.noCall) :=
  (C7_send_step_effect
    { programCounter := 3, operandStack := [Value.num 1, Value.chanRef 0] }
    (fun _ => {}) 0 (Value.num 1) [] rfl).2 rfl

/-! ## C1: extendEnvironment loses frames at width 8 -/

/-- C1 (code bug): on a fresh 4000-byte heap, seven rounds of
    `extendEnvironment` starting from the one-frame global environment build
    an environment at 390 recording 8 frames whose slot 0 holds the frame at
    50.  Extending it once more with the fresh frame 400 yields an
    environment at 410 recording 9 frames, but none of the 8 existing frame
    pointers is copied - slot 0 (and every other slot of the head node) is
    the UNALLOCATED singleton 40 - and the new frame 400 is written into the
    extension-link word (offset 9) of the extension node instead of slot 8,
    which is left UNALLOCATED. -/
theorem C1_extendEnvironment_drops_frames :
    (c1Pre.1 = 390 ∧ c1Pre.2.getMeta c1Pre.1 = 8 ∧
     c1Pre.2.getWord (c1Pre.1 + 1) = 50 ∧ c1Pre.2.getWord (c1Pre.1 + 8) = 380) ∧
    (c1Frame.1 = 400) ∧
    (c1Post.1 = 410 ∧ c1Post.2.getMeta c1Post.1 = 9) ∧
    (c1Post.2.litUnallocated = 40 ∧
     c1Post.2.getWord (c1Post.1 + 1) = 40 ∧
     c1Post.2.getWord (c1Post.1 + 8) = 40 ∧
     c1Post.2.getWord (c1Post.2.getWord (c1Post.1 + 9) + 1) = 40 ∧
     c1Post.2.getWord (c1Post.2.getWord (c1Post.1 + 9) + 9) = 400) := by
  decide

/-! ## C4: string interning and the hash-collision round trip -/

/-- C4 (amended): after a successful `allocateString(s)` returning address
    `a`, allocating any character-wise equal string again returns the same
    address `a` without touching the heap; and when no string was already
    interned at `hash(s)` before the call, the text round-trips:
    `getString(a) = s`.  (Under a hash collision with a different earlier
    string the round trip fails - see the counterexample.) -/
theorem C4_string_interning (fuel : Nat) (h h1 : Heap) (s : List Nat) (a : Int)
    (hok : Heap.allocateString fuel s h = (Except.ok a, h1)) :
    Heap.allocateString fuel s h1 = (Except.ok a, h1) ∧
    (h.stringPool (Heap.hashString s) = none → Heap.getString h1 a = Except.ok s) := by
  unfold Heap.allocateString at hok
  simp only [] at hok
  cases hfetch : h.fetchAddressFromStringPool (Heap.hashString s) with
  | some a0 =>
    rw [hfetch] at hok
    simp only [] at hok
    obtain ⟨hfst, hsnd⟩ := Prod.mk.injEq .. ▸ hok
    injection hfst with hfst
    have haddr : a = a0 := hfst.symm
    subst haddr
    subst hsnd
    constructor
    · unfold Heap.allocateString
      simp only []
      rw [hfetch]
    · intro hnone
      unfold Heap.fetchAddressFromStringPool at hfetch
      rw [hnone] at hfetch
      cases hfetch
  | none =>
    rw [hfetch] at hok
    simp only [] at hok
    cases halloc : Heap.allocate fuel tagSTRING 0 h with
    | mk res ha =>
      cases res with
      | error e => rw [halloc] at hok; simp at hok
      | ok addr =>
        rw [halloc] at hok
        simp only [] at hok
        obtain ⟨hfst, hsnd⟩ := Prod.mk.injEq .. ▸ hok
        injection hfst with hfst
        have haddr : a = addr := hfst.symm
        subst haddr
        subst hsnd
        constructor
        · unfold Heap.allocateString
          simp only []
          have hfin : (({ ha with stringPool := fun j =>
              if j = Heap.hashString s then some (a, s) else ha.stringPool j } :
                Heap).setWord (a + 1) (Heap.hashString s)).fetchAddressFromStringPool
                (Heap.hashString s) = some a := by
            unfold Heap.fetchAddressFromStringPool
            show (match (if Heap.hashString s = Heap.hashString s
                then some (a, s) else ha.stringPool (Heap.hashString s)) with
              | none => none
              | some (a, _) => some a) = some a
            rw [if_pos rfl]
          rw [hfin]
        · intro _
          unfold Heap.getString
          have htag : (({ ha with stringPool := fun j =>
              if j = Heap.hashString s then some (a, s) else ha.stringPool j } :
                Heap).setWord (a + 1) (Heap.hashString s)).isString a = true := by
            unfold Heap.isString
            rw [Heap.getTag_setWord_preserved _ _ _ _ (by omega)]
            have hmm : ({ ha with stringPool := fun j =>
                if j = Heap.hashString s then some (a, s) else ha.stringPool j } :
                  Heap).getTag a = ha.getTag a := rfl
            rw [hmm, Heap.allocate_ok_tag fuel tagSTRING 0 h a ha halloc]
            simp
          rw [if_neg (by simp [htag])]
          rw [Heap.getWord_setWord_self]
          show (match (if Heap.hashString s = Heap.hashString s
              then some (a, s) else ha.stringPool (Heap.hashString s)) with
            | some (_, s0) => Except.ok s0
            | none => Except.error "TypeError: string pool entry missing") = Except.ok s
          rw [if_pos rfl]

/-- C4 counterexample: `"ab"` and `"bA"` have the same DJB2/int32 hash; on a
    fresh heap, interning `"ab"` and then `"bA"` returns the same address for
    both, and `getString` at that address yields `"ab"`, so the round trip
    for `"bA"` fails. -/
theorem C4_collision_counterexample :
    Heap.hashString strAB = Heap.hashString strBA ∧
    strAB ≠ strBA ∧
    c4Second.1 = c4First.1 ∧
    Heap.getString c4Second.2 c4Second.1 = Except.ok strAB :=
  ⟨by decide, by decide, by decide, by rfl⟩

/-- C4 witness: the amended theorem applied to `"ab"` on the fresh heap. -/
theorem C4_witness :
    Heap.allocateString 4000 strAB c4First.2 = (Except.ok c4First.1, c4First.2) ∧
    Heap.getString c4First.2 c4First.1 = Except.ok strAB := by
  have := C4_string_interning 4000 testHeap c4First.2 strAB c4First.1 (by rfl)
  exact ⟨this.1, this.2 (by decide)⟩

/-! ## C10: array index bounds checking -/

/-- C10 (amended): `accessArrayIndex` and `assignArrayIndex` check only the
    upper bound.  For an array of recorded size `n ≥ 0` and a NUMBER index
    whose payload is `i`: if `i ≥ n` both raise "Index out of bounds"; for
    every negative `i` no error is raised, and the word at offset
    `(i % 8) + 1` of the head node (JS truncated remainder) is read or
    written.  That offset is at most `1`; it equals `1` - element slot 0,
    inside the array - exactly when `8` divides `i`, and is nonpositive
    (the header word or words below the node, outside the element slots)
    otherwise. -/
theorem C10_array_index_checks_upper_bound_only (h : Heap) (array index i v : Int)
    (harr : h.isArray array = true) (hidx : h.isNumber index = true)
    (hpay : h.getWord (index + 1) = i) (hszpos : 0 ≤ h.getMeta array) :
    (i ≥ h.getMeta array →
      Heap.accessArrayIndex h array index = Except.error "Index out of bounds" ∧
      Heap.assignArrayIndex h array index v = (Except.error "Index out of bounds", h)) ∧
    (i < 0 →
      Heap.accessArrayIndex h array index =
        Except.ok (h.getWord (array + Int.tmod i 8 + 1)) ∧
      Heap.assignArrayIndex h array index v =
        (Except.ok (), h.setWord (array + Int.tmod i 8 + 1) v) ∧
      Int.tmod i 8 + 1 ≤ 1 ∧
      (Int.tmod i 8 + 1 = 1 ↔ (8 : Int) ∣ i)) := by
  have harr' : ¬ (¬ h.isArray array = true) := by rw [harr]; simp
  have hidx' : ¬ (¬ h.isNumber index = true) := by rw [hidx]; simp
  constructor
  · intro hge
    constructor
    · unfold Heap.accessArrayIndex
      rw [if_neg harr', if_neg hidx', hpay, if_pos hge]
    · unfold Heap.assignArrayIndex
      rw [if_neg harr', if_neg hidx', hpay, if_pos hge]
  · intro hneg
    have hnotge : ¬ (i ≥ h.getMeta array) := by omega
    have hfd : (Int.fdiv i 8).toNat = 0 := by
      rw [Int.fdiv_eq_ediv _ (by omega)]
      exact Int.toNat_of_nonpos (le_of_lt (Int.ediv_neg' hneg (by omega)))
    have htmodneg : (-i).tmod 8 = -(i.tmod 8) := by
      rw [Int.tmod_def, Int.tmod_def, Int.neg_tdiv]; ring
    have htm1 : i.tmod 8 ≤ 0 := by
      have := Int.tmod_nonneg 8 (by omega : (0 : Int) ≤ -i)
      omega
    have htm2 : -8 < i.tmod 8 := by
      have := Int.tmod_lt_of_pos (-i) (by omega : (0 : Int) < 8)
      omega
    refine ⟨?_, ?_, by omega, ?_⟩
    · unfold Heap.accessArrayIndex
      rw [if_neg harr', if_neg hidx', hpay, if_neg hnotge]
      simp only []
      rw [hfd, Heap.chainTraverse]
    · unfold Heap.assignArrayIndex
      rw [if_neg harr', if_neg hidx', hpay, if_neg hnotge]
      simp only []
      rw [hfd, Heap.chainTraverse]
    · constructor
      · intro h1
        exact Int.dvd_of_tmod_eq_zero (by omega)
      · intro hdvd
        have := Int.tmod_eq_zero_of_dvd hdvd
        omega

/-- C10 counterexample: on the concrete heap, the array at 260 has size 1 and
    its element slot 0 holds the number node 270; the NUMBER node 290 holds
    the index `-8`.  Accessing index `-8` raises no error and returns 270 -
    exactly what accessing index 0 returns - so the accessed word does NOT
    lie outside the array element slots. -/
theorem C10_minus8_reads_slot0_counterexample :
    c10State.getWord (290 + 1) = -8 ∧
    c10State.getMeta 260 = 1 ∧
    Heap.accessArrayIndex c10State 260 290 = Except.ok 270 ∧
    Heap.accessArrayIndex c10State 260 280 = Except.ok 270 :=
  ⟨by decide, by decide, by rfl, by rfl⟩

/-- C10 witness: the amended theorem applied at the concrete array and the
    index node carrying `-8`. -/
theorem C10_witness :
    Heap.accessArrayIndex c10State 260 290 =
      Except.ok (c10State.getWord (260 + Int.tmod (-8) 8 + 1)) ∧
    Int.tmod (-8) 8 + 1 = 1 :=
  ⟨((C10_array_index_checks_upper_bound_only c10State 260 290 (-8) 0
      (by decide) (by decide) (by decide) (by decide)).2 (by decide)).1,
   ((C10_array_index_checks_upper_bound_only c10State 260 290 (-8) 0
      (by decide) (by decide) (by decide) (by decide)).2 (by decide)).2.2.2.mpr ⟨-1, by decide⟩⟩

/-! ## C9: termination of the recursive marker -/

namespace Heap

theorem markOnlyH_refl (h : Heap) : MarkOnlyH h h :=
  ⟨rfl, rfl, rfl, rfl, rfl, rfl, rfl, rfl, rfl, rfl, rfl, fun _ => Or.inl rfl⟩

theorem markOnlyH_trans {h1 h2 h3 : Heap} (p : MarkOnlyH h1 h2) (q : MarkOnlyH h2 h3) :
    MarkOnlyH h1 h3 := by
  obtain ⟨s1, f1, sp1, lf1, lt1, ln1, lu1, lua1, g1, w1, r1, m1⟩ := p
  obtain ⟨s2, f2, sp2, lf2, lt2, ln2, lu2, lua2, g2, w2, r2, m2⟩ := q
  refine ⟨s2.trans s1, f2.trans f1, sp2.trans sp1, lf2.trans lf1, lt2.trans lt1,
    ln2.trans ln1, lu2.trans lu1, lua2.trans lua1, g2.trans g1, w2.trans w1, r2.trans r1, ?_⟩
  intro a
  rcases m1 a with e1 | ⟨t, c, meta, hb, ha⟩
  · rcases m2 a with e2 | ⟨t, c, meta, hb, ha⟩
    · exact Or.inl (e2.trans e1)
    · exact Or.inr ⟨t, c, meta, e1 ▸ hb, ha⟩
  · rcases m2 a with e2 | ⟨t', c', meta', hb', ha'⟩
    · exact Or.inr ⟨t, c, meta, hb, e2.trans ha⟩
    · rw [ha] at hb'; cases hb'

theorem markOnlyH_getWord {h h' : Heap} (p : MarkOnlyH h h') (a : Int) :
    h'.getWord a = h.getWord a := by
  rcases p.2.2.2.2.2.2.2.2.2.2.2 a with e | ⟨t, c, meta, hb, ha⟩
  · unfold getWord; rw [e]
  · unfold getWord; rw [ha, hb]

theorem markOnlyH_getTag {h h' : Heap} (p : MarkOnlyH h h') (a : Int) :
    h'.getTag a = h.getTag a := by
  rcases p.2.2.2.2.2.2.2.2.2.2.2 a with e | ⟨t, c, meta, hb, ha⟩
  · unfold getTag; rw [e]
  · unfold getTag; rw [ha, hb]

theorem markOnlyH_getNumChildren {h h' : Heap} (p : MarkOnlyH h h') (a : Int) :
    h'.getNumChildren a = h.getNumChildren a := by
  rcases p.2.2.2.2.2.2.2.2.2.2.2 a with e | ⟨t, c, meta, hb, ha⟩
  · unfold getNumChildren; rw [e]
  · unfold getNumChildren; rw [ha, hb]

theorem markOnlyH_isFree {h h' : Heap} (p : MarkOnlyH h h') (a : Int) :
    h'.isFree a = h.isFree a := by
  unfold isFree
  rw [markOnlyH_getTag p]

theorem markOnlyH_validNodeB {h h' : Heap} (p : MarkOnlyH h h') (a : Int) :
    validNodeB h' a = validNodeB h a := by
  unfold validNodeB
  rw [show h'.sizeWords = h.sizeWords from by unfold sizeWords; rw [p.1]]
  rcases p.2.2.2.2.2.2.2.2.2.2.2 a with e | ⟨t, c, meta, hb, ha⟩
  · rw [e]
  · rw [ha, hb]
    rfl

theorem markOnlyH_wellFormedChildren {h h' : Heap} (p : MarkOnlyH h h')
    (hwf : wellFormedChildren h) : wellFormedChildren h' := by
  intro n hn hv hnf i h1i hik
  rw [show h'.sizeWords = h.sizeWords from by unfold sizeWords; rw [p.1]] at hn
  rw [markOnlyH_validNodeB p] at hv
  rw [markOnlyH_isFree p] at hnf
  rw [markOnlyH_getNumChildren p] at hik
  rw [markOnlyH_getWord p, markOnlyH_validNodeB p]
  exact hwf n hn hv hnf i h1i hik

theorem markOnlyH_unmarkedCount {h h' : Heap} (p : MarkOnlyH h h') :
    unmarkedCount h' ≤ unmarkedCount h := by
  unfold unmarkedCount
  rw [show h'.sizeWords = h.sizeWords from by unfold sizeWords; rw [p.1]]
  apply Finset.card_le_card
  intro n hn
  rw [Finset.mem_filter] at hn ⊢
  refine ⟨hn.1, ?_⟩
  rcases p.2.2.2.2.2.2.2.2.2.2.2 (n : Int) with e | ⟨t, c, meta, hb, ha⟩
  · rw [← e]; exact hn.2
  · rw [ha] at hn; exact absurd hn.2 (by simp [isUnmarkedHeader])

/-- marking a valid, unmarked, header node is a `MarkOnlyH` step that
    strictly decreases the unmarked-header count. -/
theorem mark_markOnlyH_strict (h : Heap) (a : Int) (t : Nat) (c : Nat) (meta : Int)
    (hv : validNodeB h a = true) (hm : h.mem a = Word.header t false c meta) :
    MarkOnlyH h (h.mark a) ∧ unmarkedCount (h.mark a) < unmarkedCount h := by
  obtain ⟨ml⟩ := mark_fields h a
  constructor
  · refine ⟨(mark_fields h a).1, (mark_fields h a).2.1, (mark_fields h a).2.2.1,
      (mark_fields h a).2.2.2.1, (mark_fields h a).2.2.2.2.1, (mark_fields h a).2.2.2.2.2.1,
      (mark_fields h a).2.2.2.2.2.2.1, (mark_fields h a).2.2.2.2.2.2.2.1,
      (mark_fields h a).2.2.2.2.2.2.2.2.1, (mark_fields h a).2.2.2.2.2.2.2.2.2.1,
      (mark_fields h a).2.2.2.2.2.2.2.2.2.2, ?_⟩
    intro b
    rw [mem_mark]
    by_cases hb : b = a
    · subst hb
      rw [if_pos rfl, hm]
      exact Or.inr ⟨t, c, meta, rfl, rfl⟩
    · rw [if_neg hb]
      exact Or.inl rfl
  · unfold unmarkedCount
    have hsw : (h.mark a).sizeWords = h.sizeWords := by
      unfold sizeWords; rw [(mark_fields h a).1]
    rw [hsw]
    have hrange : 0 ≤ a ∧ a < (h.sizeWords : Int) := by
      unfold validNodeB at hv
      simp only [Bool.and_eq_true, decide_eq_true_eq] at hv
      exact ⟨hv.1.1, hv.1.2⟩
    apply Finset.card_lt_card
    constructor
    · intro n hn
      rw [Finset.mem_filter] at hn ⊢
      refine ⟨hn.1, ?_⟩
      rw [mem_mark] at hn
      by_cases hb : (n : Int) = a
      · rw [if_pos hb, hm] at hn
        exact absurd hn.2 (by simp [markedWord, isUnmarkedHeader])
      · rw [if_neg hb] at hn
        exact hn.2
    · intro hall
      have hmem : a.toNat ∈ (Finset.range h.sizeWords).filter
          (fun n => isUnmarkedHeader (h.mem ((n : Nat) : Int)) = true) := by
        rw [Finset.mem_filter, Finset.mem_range]
        constructor
        · omega
        · rw [show ((a.toNat : Nat) : Int) = a by omega, hm]
          rfl
      have := hall hmem
      rw [Finset.mem_filter] at this
      have h2 := this.2
      rw [mem_mark, show ((a.toNat : Nat) : Int) = a by omega, if_pos rfl, hm] at h2
      exact absurd h2 (by simp [markedWord, isUnmarkedHeader])

end Heap

namespace Heap

/-- instantiating the wellformedness hypothesis at a valid non-free node. -/
theorem wellFormedChildren_child (h : Heap) (hwf : wellFormedChildren h) (a : Int)
    (hv : validNodeB h a = true) (hnf : ¬ h.isFree a = true) (i : Nat) (h1i : 1 ≤ i)
    (hik : i ≤ h.getNumChildren a) : validNodeB h (h.getWord (a + i)) = true := by
  have hrange : 0 ≤ a ∧ a < (h.sizeWords : Int) := by
    unfold validNodeB at hv
    simp only [Bool.and_eq_true, decide_eq_true_eq] at hv
    exact ⟨hv.1.1, hv.1.2⟩
  have hcast : ((a.toNat : Nat) : Int) = a := by omega
  have := hwf a.toNat (by omega) (by rw [hcast]; exact hv) (by rw [hcast]; exact hnf)
    i h1i (by rw [hcast]; exact hik)
  rw [hcast] at this
  exact this

/-- the inductive engine for the termination claim: with fuel exceeding the
    number of unmarked headers, `markRecursive` succeeds and performs a
    header-only marking step. -/
theorem markRecursiveF_total : ∀ fuel : Nat, ∀ (h : Heap) (a : Int),
    wellFormedChildren h → validNodeB h a = true → unmarkedCount h < fuel →
    ∃ h', markRecursiveF fuel a h = Except.ok h' ∧ MarkOnlyH h h' ∧
      wellFormedChildren h' ∧ unmarkedCount h' ≤ unmarkedCount h := by
  intro fuel
  induction fuel with
  | zero =>
    intro h a _ _ hcount
    exact absurd hcount (by omega)
  | succ fuel ih =>
    have children : ∀ (k i : Nat) (a : Int) (h : Heap),
        wellFormedChildren h → validNodeB h a = true → ¬ h.isFree a = true →
        1 ≤ i → i + k ≤ h.getNumChildren a + 1 → unmarkedCount h < fuel →
        ∃ h', markChildrenGo (markRecursiveF fuel) a i k h = Except.ok h' ∧
          MarkOnlyH h h' ∧ wellFormedChildren h' ∧ unmarkedCount h' ≤ unmarkedCount h := by
      intro k
      induction k with
      | zero =>
        intro i a h hwf _ _ _ _ _
        exact ⟨h, rfl, markOnlyH_refl h, hwf, le_refl _⟩
      | succ k ihk =>
        intro i a h hwf hv hnf h1i hik hcount
        have hchild : validNodeB h (h.getWord (a + i)) = true :=
          wellFormedChildren_child h hwf a hv hnf i h1i (by omega)
        obtain ⟨h2, hrec, hmo2, hwf2, hcount2⟩ := ih h (h.getWord (a + i)) hwf hchild hcount
        have hv2 : validNodeB h2 a = true := by rw [markOnlyH_validNodeB hmo2]; exact hv
        have hnf2 : ¬ h2.isFree a = true := by rw [markOnlyH_isFree hmo2]; exact hnf
        have hik2 : (i + 1) + k ≤ h2.getNumChildren a + 1 := by
          rw [markOnlyH_getNumChildren hmo2]; omega
        obtain ⟨h3, hrest, hmo3, hwf3, hcount3⟩ :=
          ihk (i + 1) a h2 hwf2 hv2 hnf2 (by omega) hik2 (by omega)
        refine ⟨h3, ?_, markOnlyH_trans hmo2 hmo3, hwf3, le_trans hcount3 hcount2⟩
        unfold markChildrenGo
        rw [hrec]
        exact hrest
    intro h a hwf hv hcount
    unfold markRecursiveF
    by_cases hm : h.isMarked a
    · simp only [hm, if_pos]
      exact ⟨h, rfl, markOnlyH_refl h, hwf, le_refl _⟩
    · by_cases hf : h.isFree a
      · simp only [hm, hf, if_neg, if_pos, Bool.false_eq_true, not_false_eq_true, ite_false]
        exact ⟨h, rfl, markOnlyH_refl h, hwf, le_refl _⟩
      · simp only [hm, hf, Bool.false_eq_true, not_false_eq_true, ite_false]
        -- `a` is a valid unmarked header: marking strictly decreases the count
        have hheader : ∃ t c meta, h.mem a = Word.header t false c meta := by
          unfold validNodeB at hv
          simp only [Bool.and_eq_true, decide_eq_true_eq] at hv
          cases hmem : h.mem a with
          | header t m c meta =>
            cases m with
            | false => exact ⟨t, c, meta, rfl⟩
            | true =>
              exfalso
              apply hm
              unfold isMarked
              rw [hmem]
          | data v =>
            exfalso
            have := hv.2
            rw [hmem] at this
            simp [isHeaderWord] at this
        obtain ⟨t, c, meta, hmem⟩ := hheader
        obtain ⟨hmo1, hlt⟩ := mark_markOnlyH_strict h a t c meta hv hmem
        have hwf1 : wellFormedChildren (h.mark a) := markOnlyH_wellFormedChildren hmo1 hwf
        have hv1 : validNodeB (h.mark a) a = true := by
          rw [markOnlyH_validNodeB hmo1]; exact hv
        have hnf1 : ¬ (h.mark a).isFree a = true := by
          rw [markOnlyH_isFree hmo1]; exact hf
        obtain ⟨h', hgo, hmo', hwf', hcount'⟩ :=
          children ((h.mark a).getNumChildren a) 1 a (h.mark a) hwf1 hv1 hnf1
            (le_refl 1) (by omega) (by omega)
        refine ⟨h', hgo, markOnlyH_trans hmo1 hmo', hwf', ?_⟩
        omega

end Heap

/-- C9: `markRecursive` terminates on every heap in which every child word of
    every non-free node is a valid node address - object graphs with cycles
    included - because already-marked and FREE nodes return without
    recursing: any fuel exceeding the number of unmarked headers in the
    buffer is never exhausted, so the recursion depth is bounded and the
    walk returns normally. -/
theorem C9_markRecursive_terminates (h : Heap) (a : Int) (fuel : Nat)
    (hwf : wellFormedChildren h) (hv : validNodeB h a = true)
    (hfuel : unmarkedCount h < fuel) :
    ∃ h', Heap.markRecursiveF fuel a h = Except.ok h' := by
  obtain ⟨h', hok, _, _, _⟩ := Heap.markRecursiveF_total fuel h a hwf hv hfuel
  exact ⟨h', hok⟩

/-- C9 witness: the marker terminates on the concrete two-node cyclic heap
    (node 0 points to node 10 and to itself; node 10 points back to node 0). -/
theorem C9_witness : ∃ h', Heap.markRecursiveF 18 0 c9Heap = Except.ok h' :=
  C9_markRecursive_terminates c9Heap 0 18 (by decide) (by decide) (by decide)

namespace Heap

theorem toInt32_id (x : Int) (hlo : -2147483648 ≤ x) (hhi : x < 2147483648) :
    toInt32 x = x := by
  unfold toInt32
  simp only []
  omega

/-- reading back a `setFreePointerAtAddress` on a fresh zero word. -/
theorem mem_setFP_zero (h : Heap) (i next : Int) (hz : h.mem i = Word.header 0 false 0 0) :
    (h.setFreePointerAtAddress i next).mem i = Word.header tagFREE false 0 (toInt32 next) := by
  unfold setFreePointerAtAddress setMeta setTag
  rw [hz]
  simp [writeMem, tagFREE]

/-- the free-list initialization loop over a zeroed region builds exactly the
    arithmetic progression of nodes as the free list.  `W` is the allocable
    size in words; the loop starts at `i` with `m = (W - i)/10` nodes left. -/
theorem initFreeListLoop_chain : ∀ (m k : Nat) (i : Int) (W : Nat) (h : Heap),
    0 ≤ i → i + 10 * m = (W : Int) → 1 ≤ m → m ≤ k → (W : Int) < 2147483648 →
    (∀ j : Int, i ≤ j → h.mem j = Word.header 0 false 0 0) →
    freeListFrom (m + 1) (initFreeListLoop k i (8 * W) h) i =
      some ((List.range m).map fun j : Nat => i + 10 * (j : Int)) := by
  intro m
  induction m with
  | zero => intro k i W h _ _ hm; omega
  | succ m ihm =>
    intro k i W h hi hiW hm hmk hW32 hzero
    cases k with
    | zero => omega
    | succ k =>
      unfold initFreeListLoop
      by_cases hcond : (i + 10) * 8 < ((8 * W : Nat) : Int)
      · -- at least one more node after this one
        have hm2 : 1 ≤ m := by
          rcases Nat.eq_zero_or_pos m with h0 | h1
          · exfalso
            subst h0
            push_cast at hiW hcond
            omega
          · exact h1
        rw [if_pos hcond]
        have hzero' : ∀ j : Int, i + 10 ≤ j →
            (h.setFreePointerAtAddress i (i + 10)).mem j = Word.header 0 false 0 0 := by
          intro j hj
          rw [mem_setFreePointerAtAddress_ne _ _ _ _ (by omega)]
          exact hzero j (by omega)
        have hrest := ihm k (i + 10) W (h.setFreePointerAtAddress i (i + 10))
          (by omega) (by push_cast at hiW ⊢; omega) hm2 (by omega) hW32 hzero'
        show freeListFrom (m + 1 + 1) _ i = _
        unfold freeListFrom
        have hne : ¬ (i = -1) := by omega
        rw [if_neg hne]
        have hmemi : (initFreeListLoop k (i + 10) (8 * W)
            (h.setFreePointerAtAddress i (i + 10))).mem i =
            Word.header tagFREE false 0 (i + 10) := by
          rw [initFreeListLoop_mem_lt _ _ _ _ _ (by omega)]
          rw [mem_setFP_zero _ _ _ (hzero i (le_refl i))]
          rw [toInt32_id _ (by omega) (by push_cast at hiW; omega)]
        have hisfree : (initFreeListLoop k (i + 10) (8 * W)
            (h.setFreePointerAtAddress i (i + 10))).isFree i = true := by
          unfold isFree getTag
          rw [hmemi]
          simp [tagFREE]
        rw [if_pos hisfree]
        have hmeta : (initFreeListLoop k (i + 10) (8 * W)
            (h.setFreePointerAtAddress i (i + 10))).getMeta i = i + 10 := by
          unfold getMeta
          rw [hmemi]
        have hlist : ((List.range (m + 1)).map fun j : Nat => i + 10 * (j : Int)) =
            i :: ((List.range m).map fun j : Nat => (i + 10) + 10 * (j : Int)) := by
          rw [List.range_succ_eq_map, List.map_cons, List.map_map]
          simp only [Nat.cast_zero, mul_zero, add_zero]
          congr 1
          apply List.map_congr_left
          intro j _
          simp only [Function.comp_apply]
          push_cast
          ring
        rw [hmeta, hrest, hlist]
      · -- last node: terminator
        have hm1 : m = 0 := by
          rcases Nat.eq_zero_or_pos m with h0 | h1
          · exact h0
          · exfalso
            push_cast at hiW hcond
            omega
        subst hm1
        rw [if_neg hcond]
        show freeListFrom 2 _ i = _
        unfold freeListFrom
        have hne : ¬ (i = -1) := by omega
        rw [if_neg hne]
        have hmemi : (h.setFreePointerAtAddress i (-1)).mem i =
            Word.header tagFREE false 0 (-1) := by
          rw [mem_setFP_zero _ _ _ (hzero i (le_refl i))]
          rw [toInt32_id _ (by omega) (by omega)]
        have hisfree : (h.setFreePointerAtAddress i (-1)).isFree i = true := by
          unfold isFree getTag
          rw [hmemi]
          simp [tagFREE]
        rw [if_pos hisfree]
        have hmeta : (h.setFreePointerAtAddress i (-1)).getMeta i = -1 := by
          unfold getMeta
          rw [hmemi]
        have h1 : freeListFrom 1 (h.setFreePointerAtAddress i (-1)) (-1) = some [] := by
          unfold freeListFrom
          rw [if_pos rfl]
        have hlist : ((List.range 1).map fun j : Nat => i + 10 * (j : Int)) = [i] := by
          simp [List.range_succ]
        rw [hmeta, h1, hlist]

end Heap

namespace Heap

/-- after `resizeHeap` the free list is exactly the arithmetic progression of
    fresh trailing nodes between the old allocable boundary and the new one,
    ending in the −1 sentinel. -/
theorem resizeHeap_freeList (h : Heap)
    (hS : 80 ≤ h.sizeBytes) (hS30 : h.sizeBytes ≤ 2 ^ 30) :
    freeListFrom
      (((h.sizeBytes * 2 - h.sizeBytes * 2 % 80) / 8 -
        (h.sizeBytes - h.sizeBytes % 80) / 8) / 10 + 1)
      h.resizeHeap (((h.sizeBytes - h.sizeBytes % 80) / 8 : Nat) : Int) =
      some ((List.range (((h.sizeBytes * 2 - h.sizeBytes * 2 % 80) / 8 -
          (h.sizeBytes - h.sizeBytes % 80) / 8) / 10)).map
        fun j : Nat =>
          (((h.sizeBytes - h.sizeBytes % 80) / 8 : Nat) : Int) + 10 * (j : Int)) := by
  have hgoal := initFreeListLoop_chain
    (((h.sizeBytes * 2 - h.sizeBytes * 2 % 80) / 8 -
      (h.sizeBytes - h.sizeBytes % 80) / 8) / 10)
    ((h.sizeBytes * 2 - h.sizeBytes * 2 % 80) / 80 + 1)
    (((h.sizeBytes - h.sizeBytes % 80) / 8 : Nat) : Int)
    ((h.sizeBytes * 2 - h.sizeBytes * 2 % 80) / 8)
    { h with
        mem := copyWordsLoop h.mem ((h.sizeBytes - h.sizeBytes % 80) / 8)
          (fun _ => Word.header 0 false 0 0),
        sizeBytes := h.sizeBytes * 2,
        freePointer := (((h.sizeBytes - h.sizeBytes % 80) / 8 : Nat) : Int) }
    (Int.natCast_nonneg _)
    (by omega)
    (by omega)
    (by omega)
    (by omega)
    (by
      intro j hj
      show copyWordsLoop h.mem ((h.sizeBytes - h.sizeBytes % 80) / 8)
        (fun _ => Word.header 0 false 0 0) j = Word.header 0 false 0 0
      rw [copyWordsLoop_read]
      rw [if_neg (by omega)])
  rw [show (8 * ((h.sizeBytes * 2 - h.sizeBytes * 2 % 80) / 8) : Nat) =
      h.sizeBytes * 2 - h.sizeBytes * 2 % 80 from by omega] at hgoal
  exact hgoal

end Heap

/-- C3: a successful `allocate` returns the old head of the free list
    (first-fit), and the free pointer it leaves behind is never the empty
    sentinel −1.  When the popped next pointer is the sentinel, garbage
    collection runs on the heap with the free list emptied; if collection
    recovers nothing, `resizeHeap` doubles the backing buffer, keeps every
    old allocable word at its address, and the fresh trailing nodes form the
    whole new free list: the arithmetic progression of node addresses
    starting at the old allocable boundary, ending in −1. -/
theorem C3_allocate_first_fit (fuel tag k : Nat) (h : Heap) (r : Int) (h2' : Heap)
    (hok : Heap.allocate fuel tag k h = (Except.ok r, h2')) :
    r = h.freePointer ∧ h2'.freePointer ≠ -1 ∧
    (h.getFreePointerAtAddress h.freePointer = Except.ok (-1) →
      ∃ hg, Heap.garbageCollect fuel { h with freePointer := -1 } = Except.ok hg ∧
        (hg.freePointer = -1 →
          hg.resizeHeap.sizeBytes = 2 * h.sizeBytes ∧
          h2'.sizeBytes = 2 * h.sizeBytes ∧
          (∀ b : Int, 0 ≤ b →
            b < ((h.sizeBytes - h.sizeBytes % 80) / 8 : Nat) →
            hg.resizeHeap.mem b = hg.mem b) ∧
          (80 ≤ h.sizeBytes → h.sizeBytes ≤ 2 ^ 30 →
            freeListFrom
              (((h.sizeBytes * 2 - h.sizeBytes * 2 % 80) / 8 -
                (h.sizeBytes - h.sizeBytes % 80) / 8) / 10 + 1)
              hg.resizeHeap hg.resizeHeap.freePointer =
              some ((List.range (((h.sizeBytes * 2 - h.sizeBytes * 2 % 80) / 8 -
                  (h.sizeBytes - h.sizeBytes % 80) / 8) / 10)).map
                fun j : Nat =>
                  (((h.sizeBytes - h.sizeBytes % 80) / 8 : Nat) : Int) +
                    10 * (j : Int))))) := by
  obtain ⟨hr, _, _, _, _, _, hfp⟩ := Heap.allocate_ok_spec fuel tag k h r h2' hok
  refine ⟨hr, hfp, ?_⟩
  intro hmiss
  unfold Heap.allocate at hok
  simp only [] at hok
  rw [hmiss] at hok
  simp only [] at hok
  rw [if_pos trivial] at hok
  cases hgc : Heap.garbageCollect fuel { h with freePointer := -1 } with
  | error e => rw [hgc] at hok; cases hok
  | ok hg =>
    rw [hgc] at hok
    simp only [] at hok
    refine ⟨hg, rfl, ?_⟩
    intro hm2
    rw [if_pos hm2] at hok
    obtain ⟨hfst, hsnd⟩ := Prod.mk.injEq .. ▸ hok
    have hsz2 : hg.sizeBytes = h.sizeBytes :=
      (Heap.garbageCollect_sweepFields fuel _ hg hgc).1
    obtain ⟨rsz, rfp, rmem, _⟩ := Heap.resizeHeap_spec hg
    refine ⟨?_, ?_, ?_, ?_⟩
    · rw [rsz, hsz2]
    · rw [← hsnd]
      rw [(Heap.fields_setNumChildren _ _ _).1, (Heap.fields_unmark _ _).1,
        (Heap.fields_setTag _ _ _).1, rsz, hsz2]
    · intro b hb hblt
      refine rmem b hb ?_
      rw [hsz2]
      exact hblt
    · intro hS hS30
      have hchain := Heap.resizeHeap_freeList hg (by rw [hsz2]; exact hS)
        (by rw [hsz2]; exact hS30)
      rw [hsz2] at hchain
      rw [rfp, hsz2]
      exact hchain

/-- C3 witness: on a 160-byte heap whose free list is 0 → 10 → −1, a
    successful `allocate` returns node 0 (the head) and leaves free pointer
    10 ≠ −1. -/
theorem C3_witness :
    (0 : Int) = c3Heap.freePointer ∧
    (Heap.allocate 1 tagNUMBER 0 c3Heap).2.freePointer ≠ -1 := by
  obtain ⟨h1, h2, _⟩ := C3_allocate_first_fit 1 tagNUMBER 0 c3Heap 0
    (Heap.allocate 1 tagNUMBER 0 c3Heap).2 (by rfl)
  exact ⟨h1, h2⟩


/-- `cycleStep` when the checked task is done and not the root: append it to
    `toClean`, touch nothing else. -/
theorem cycleStep_clean (chs : ChanStore) (n i : Nat) (g : List GoState)
    (tc : List Nat) (f : Bool) (c : Nat)
    (hd : (g.getD ((c + i + 1) % n) default).isDone = true ∧ (c + i + 1) % n ≠ 0) :
    cycleStep chs n i ⟨g, tc, f, c⟩ = ⟨g, tc ++ [(c + i + 1) % n], f, c⟩ := by
  unfold cycleStep
  simp only []
  rw [if_pos hd]

/-- `cycleStep` after a candidate was already found (and no cleanup applies):
    the state is unchanged. -/
theorem cycleStep_skip (chs : ChanStore) (n i : Nat) (g : List GoState)
    (tc : List Nat) (c : Nat)
    (hd : ¬ ((g.getD ((c + i + 1) % n) default).isDone = true ∧ (c + i + 1) % n ≠ 0)) :
    cycleStep chs n i ⟨g, tc, true, c⟩ = ⟨g, tc, true, c⟩ := by
  unfold cycleStep
  simp only []
  rw [if_neg hd, if_pos trivial]

/-- `cycleStep` on a blocked task with no favorable token: unchanged. -/
theorem cycleStep_stuck (chs : ChanStore) (n i : Nat) (g : List GoState)
    (tc : List Nat) (c : Nat)
    (hd : ¬ ((g.getD ((c + i + 1) % n) default).isDone = true ∧ (c + i + 1) % n ≠ 0))
    (hb : (g.getD ((c + i + 1) % n) default).isBlocked = true)
    (hw : (g.getD ((c + i + 1) % n) default).waitingChannelIsFree chs = false) :
    cycleStep chs n i ⟨g, tc, false, c⟩ = ⟨g, tc, false, c⟩ := by
  unfold cycleStep
  simp only []
  rw [if_neg hd, if_neg (by simp), if_pos hb, if_neg (by rw [hw]; exact Bool.false_ne_true)]

/-- `cycleStep` that selects a blocked task with a favorable token: unblock it
    in place, raise `found`, point `curr` at it. -/
theorem cycleStep_take_blocked (chs : ChanStore) (n i : Nat) (g : List GoState)
    (tc : List Nat) (c : Nat)
    (hd : ¬ ((g.getD ((c + i + 1) % n) default).isDone = true ∧ (c + i + 1) % n ≠ 0))
    (hb : (g.getD ((c + i + 1) % n) default).isBlocked = true)
    (hw : (g.getD ((c + i + 1) % n) default).waitingChannelIsFree chs = true) :
    cycleStep chs n i ⟨g, tc, false, c⟩ =
      ⟨g.set ((c + i + 1) % n) (g.getD ((c + i + 1) % n) default).unblock,
        tc, true, (c + i + 1) % n⟩ := by
  unfold cycleStep
  simp only []
  rw [if_neg hd, if_neg (by simp), if_pos hb, if_pos hw]

/-- `cycleStep` that selects a runnable task: raise `found`, point `curr` at
    it. -/
theorem cycleStep_take_run (chs : ChanStore) (n i : Nat) (g : List GoState)
    (tc : List Nat) (c : Nat)
    (hd : ¬ ((g.getD ((c + i + 1) % n) default).isDone = true ∧ (c + i + 1) % n ≠ 0))
    (hb : (g.getD ((c + i + 1) % n) default).isBlocked = false) :
    cycleStep chs n i ⟨g, tc, false, c⟩ = ⟨g, tc, true, (c + i + 1) % n⟩ := by
  unfold cycleStep
  simp only []
  rw [if_neg hd, if_neg (by simp), if_neg (by rw [hb]; exact Bool.false_ne_true)]

/-- once `found` is raised, the rest of the revolution can only grow
    `toClean`: the task array, the flag and the current index are final. -/
theorem cycleScan_found_keep (chs : ChanStore) (n : Nat) :
    ∀ (k i : Nat) (g : List GoState) (tc : List Nat) (c : Nat),
    ∃ tc2, cycleScan chs n i k ⟨g, tc, true, c⟩ = ⟨g, tc2, true, c⟩ := by
  intro k
  induction k with
  | zero =>
    intro i g tc c
    exact ⟨tc, rfl⟩
  | succ k ih =>
    intro i g tc c
    show ∃ tc2, cycleScan chs n (i + 1) k (cycleStep chs n i ⟨g, tc, true, c⟩) = _
    by_cases hd : (g.getD ((c + i + 1) % n) default).isDone = true ∧ (c + i + 1) % n ≠ 0
    · rw [cycleStep_clean chs n i g tc true c hd]
      exact ih (i + 1) g (tc ++ [(c + i + 1) % n]) c
    · rw [cycleStep_skip chs n i g tc c hd]
      exact ih (i + 1) g tc c

/-- while no candidate is present in the window, the scan only accumulates
    cleanup indices; `found`, `curr` and the task array are untouched (so the
    pre-find indices are all computed from the original current index). -/
theorem cycleScan_nofind (chs : ChanStore) (gs : List GoState) (n curr : Nat) :
    ∀ (k i : Nat) (tc : List Nat),
    (∀ t, t < k → codeCandidate gs chs ((curr + (i + t) + 1) % n) = false) →
    ∃ tc2, cycleScan chs n i k ⟨gs, tc, false, curr⟩ = ⟨gs, tc2, false, curr⟩ := by
  intro k
  induction k with
  | zero =>
    intro i tc _
    exact ⟨tc, rfl⟩
  | succ k ih =>
    intro i tc hnc
    have hnc0 : codeCandidate gs chs ((curr + i + 1) % n) = false := by
      have := hnc 0 (by omega)
      rw [show i + 0 = i from rfl] at this
      exact this
    have hshift : ∀ t, t < k → codeCandidate gs chs ((curr + (i + 1 + t) + 1) % n) = false := by
      intro t ht
      rw [show curr + (i + 1 + t) + 1 = curr + (i + (t + 1)) + 1 from by omega]
      exact hnc (t + 1) (by omega)
    show ∃ tc2, cycleScan chs n (i + 1) k (cycleStep chs n i ⟨gs, tc, false, curr⟩) = _
    by_cases hd : (gs.getD ((curr + i + 1) % n) default).isDone = true ∧ (curr + i + 1) % n ≠ 0
    · rw [cycleStep_clean chs n i gs tc false curr hd]
      exact ih (i + 1) (tc ++ [(curr + i + 1) % n]) hshift
    · by_cases hb : (gs.getD ((curr + i + 1) % n) default).isBlocked = true
      · have hw : (gs.getD ((curr + i + 1) % n) default).waitingChannelIsFree chs = false := by
          unfold codeCandidate at hnc0
          simp only [] at hnc0
          rw [if_neg hd, if_pos hb] at hnc0
          exact hnc0
        rw [cycleStep_stuck chs n i gs tc curr hd hb hw]
        exact ih (i + 1) tc hshift
      · exfalso
        unfold codeCandidate at hnc0
        simp only [] at hnc0
        rw [if_neg hd, if_neg hb] at hnc0
        cases hnc0

/-- running the scan for `k1 + k2` iterations is running it for `k1` and then
    for `k2` more. -/
theorem cycleScan_split (chs : ChanStore) (n : Nat) :
    ∀ (k1 k2 i : Nat) (st : ScanSt),
    cycleScan chs n i (k1 + k2) st =
      cycleScan chs n (i + k1) k2 (cycleScan chs n i k1 st) := by
  intro k1
  induction k1 with
  | zero =>
    intro k2 i st
    rw [Nat.zero_add]
    rfl
  | succ k1 ih =>
    intro k2 i st
    rw [Nat.succ_add]
    show cycleScan chs n (i + 1) (k1 + k2) (cycleStep chs n i st) = _
    rw [ih k2 (i + 1) (cycleStep chs n i st)]
    rw [show i + 1 + k1 = i + (k1 + 1) from by omega]
    rfl

/-- C6: `cycleNext` raises the deadlock error exactly when one full revolution
    of the ring, starting after the current task, finds no selectable task in
    the sense the code implements (`codeCandidate`: not a cleaned-up done
    non-root task, and either unblocked or blocked with a favorable waiting
    token); otherwise the scan stops its search at the first such task of the
    revolution — unblocking it in place if it was blocked — and the returned
    ring and index are the cleanup splice of the collected done indices
    applied to that selection.  No more is claimed about the final index: the
    post-find iterations recompute positions from the mutated current index,
    so the cleanup list can contain a position twice and the splice can remove
    the selected task itself. -/
theorem C6_cycleNext_deadlock_iff (chs : ChanStore) (gs : List GoState) (curr : Nat)
    (hc : curr < gs.length) :
    (cycleNext chs gs curr =
        Except.error "Deadlock detected: all goroutines are blocked." ↔
      ∀ i, i < gs.length → codeCandidate gs chs ((curr + i + 1) % gs.length) = false) ∧
    (∀ j, j < gs.length →
      codeCandidate gs chs ((curr + j + 1) % gs.length) = true →
      (∀ i, i < j → codeCandidate gs chs ((curr + i + 1) % gs.length) = false) →
      ∃ tc, cycleNext chs gs curr = Except.ok (spliceClean (sortDesc tc)
        ((if (gs.getD ((curr + j + 1) % gs.length) default).isBlocked
          then gs.set ((curr + j + 1) % gs.length)
            (gs.getD ((curr + j + 1) % gs.length) default).unblock
          else gs), (curr + j + 1) % gs.length))) := by
  have key : ∀ j, j < gs.length →
      codeCandidate gs chs ((curr + j + 1) % gs.length) = true →
      (∀ i, i < j → codeCandidate gs chs ((curr + i + 1) % gs.length) = false) →
      ∃ tc, cycleNext chs gs curr = Except.ok (spliceClean (sortDesc tc)
        ((if (gs.getD ((curr + j + 1) % gs.length) default).isBlocked
          then gs.set ((curr + j + 1) % gs.length)
            (gs.getD ((curr + j + 1) % gs.length) default).unblock
          else gs), (curr + j + 1) % gs.length)) := by
    intro j hj hcand hmin
    obtain ⟨tcA, hph1⟩ := cycleScan_nofind chs gs gs.length curr j 0 []
      (fun t ht => by
        rw [show curr + (0 + t) + 1 = curr + t + 1 from by omega]
        exact hmin t ht)
    have hsplit := cycleScan_split chs gs.length j (gs.length - j) 0
      ⟨gs, [], false, curr⟩
    rw [show j + (gs.length - j) = gs.length from by omega, Nat.zero_add] at hsplit
    rw [hph1] at hsplit
    rw [show gs.length - j = (gs.length - j - 1) + 1 from by omega] at hsplit
    have hstep1 : cycleScan chs gs.length j ((gs.length - j - 1) + 1)
        ⟨gs, tcA, false, curr⟩ =
        cycleScan chs gs.length (j + 1) (gs.length - j - 1)
          (cycleStep chs gs.length j ⟨gs, tcA, false, curr⟩) := rfl
    rw [hstep1] at hsplit
    have hnd0 : ¬ ((gs.getD ((curr + j + 1) % gs.length) default).isDone = true ∧
        (curr + j + 1) % gs.length ≠ 0) := by
      intro hcontra
      unfold codeCandidate at hcand
      simp only [] at hcand
      rw [if_pos hcontra] at hcand
      cases hcand
    by_cases hb : (gs.getD ((curr + j + 1) % gs.length) default).isBlocked = true
    · have hw : (gs.getD ((curr + j + 1) % gs.length) default).waitingChannelIsFree chs
          = true := by
        unfold codeCandidate at hcand
        simp only [] at hcand
        rw [if_neg hnd0, if_pos hb] at hcand
        exact hcand
      rw [cycleStep_take_blocked chs gs.length j gs tcA curr hnd0 hb hw] at hsplit
      obtain ⟨tcB, hph3⟩ := cycleScan_found_keep chs gs.length (gs.length - j - 1)
        (j + 1) (gs.set ((curr + j + 1) % gs.length)
          (gs.getD ((curr + j + 1) % gs.length) default).unblock)
        tcA ((curr + j + 1) % gs.length)
      rw [hph3] at hsplit
      refine ⟨tcB, ?_⟩
      unfold cycleNext
      simp only []
      rw [hsplit]
      rw [if_neg (by simp)]
      rw [if_pos hb]
    · have hb2 : (gs.getD ((curr + j + 1) % gs.length) default).isBlocked = false := by
        revert hb
        cases (gs.getD ((curr + j + 1) % gs.length) default).isBlocked <;> simp
      rw [cycleStep_take_run chs gs.length j gs tcA curr hnd0 hb2] at hsplit
      obtain ⟨tcB, hph3⟩ := cycleScan_found_keep chs gs.length (gs.length - j - 1)
        (j + 1) gs tcA ((curr + j + 1) % gs.length)
      rw [hph3] at hsplit
      refine ⟨tcB, ?_⟩
      unfold cycleNext
      simp only []
      rw [hsplit]
      rw [if_neg (by simp)]
      rw [if_neg (by rw [hb2]; exact Bool.false_ne_true)]
  refine ⟨⟨?_, ?_⟩, key⟩
  · intro herr
    by_contra hnot
    push_neg at hnot
    obtain ⟨i0, hi0, hne⟩ := hnot
    have hi0t : codeCandidate gs chs ((curr + i0 + 1) % gs.length) = true := by
      revert hne
      cases codeCandidate gs chs ((curr + i0 + 1) % gs.length) <;> simp
    have hP : ∃ m, m < gs.length ∧
        codeCandidate gs chs ((curr + m + 1) % gs.length) = true := ⟨i0, hi0, hi0t⟩
    obtain ⟨hjlt, hjc⟩ := Nat.find_spec hP
    have hjmin : ∀ i, i < Nat.find hP →
        codeCandidate gs chs ((curr + i + 1) % gs.length) = false := by
      intro i hi
      have hni := Nat.find_min hP hi
      have h1 : i < gs.length := by omega
      have h2 : ¬ codeCandidate gs chs ((curr + i + 1) % gs.length) = true :=
        fun hcc => hni ⟨h1, hcc⟩
      revert h2
      cases codeCandidate gs chs ((curr + i + 1) % gs.length) <;> simp
    obtain ⟨tc, hok⟩ := key (Nat.find hP) hjlt hjc hjmin
    rw [herr] at hok
    cases hok
  · intro hall
    obtain ⟨tc2, hscan⟩ := cycleScan_nofind chs gs gs.length curr gs.length 0 []
      (fun t ht => by
        rw [show curr + (0 + t) + 1 = curr + t + 1 from by omega]
        exact hall t ht)
    unfold cycleNext
    simp only []
    rw [hscan]
    rw [if_pos (by simp)]

/-- C6 counterexample, refuting the original claim on both sides.  First: with
    a done root task and one task blocked on a full channel, no task is a
    candidate in the claim wording (runnable, or blocked with a favorable
    token), so the claim demands a deadlock error; yet `cycleNext` succeeds,
    selecting the done root.  Second: on the ring
    `runnable-root, done, runnable, done` the first claim candidate of the
    revolution from 0 is the runnable task at index 2 (index 1 is done), but
    because the post-find iterations recompute positions from the mutated
    current index, index 1 enters `toClean` twice and the duplicate splice
    removes the selected task: the returned index 1 holds a done task, not the
    candidate. -/
theorem C6_claim_counterexample :
    ((∀ i, i < c6Gs.length →
        claimCandidate c6Gs c6Chs ((0 + i + 1) % c6Gs.length) = false) ∧
      cycleNext c6Chs c6Gs 0 = Except.ok (c6Gs, 0)) ∧
    (claimCandidate c6rGs c6Chs 1 = false ∧
      claimCandidate c6rGs c6Chs 2 = true ∧
      cycleNext c6Chs c6rGs 0 =
        Except.ok ([{}, { programCounter := 3, done := true }], 1) ∧
      (([{}, ({ programCounter := 3, done := true } : GoState)].getD 1 default).isDone
        = true)) := by
  refine ⟨⟨by decide, rfl⟩, by decide, by decide, rfl, rfl⟩

/-- C6 witness: a ring of two tasks, each blocked sending on a full channel,
    deadlocks (no position of the revolution is a code candidate). -/
theorem C6_witness :
    cycleNext c6Chs c6wGs 0 =
      Except.error "Deadlock detected: all goroutines are blocked." :=
  (C6_cycleNext_deadlock_iff c6Chs c6wGs 0 (by decide)).1.mpr (by decide)
